import Mathlib

/-!
# The batch hashing harness of `hash.c`

A shallow embedding of `src/hash.c` (the host side of an OpenCL batch hasher) and the
properties of its batch packer, dispatcher, argument parser and platform selection.

Conventions of the embedding.

* `u32` values (`items`, `metadata_t.offset`, `metadata_t.length`, the parameters of `hash`,
  `cl_uint`) are naturals kept below `2 ^ 32` by an explicit `% 2 ^ 32`; `size_t` values are
  naturals reduced `% 2 ^ 64` wherever the source does arithmetic on them (the source
  declares `typedef long unsigned int u64`, an LP64 target).
* A C buffer is a list; `realloc` and `memcpy` are list functions.  An access outside an
  allocation, a call through a null pointer, `strcmp` on a null pointer and a signed
  overflow are undefined behaviour: the embedding stops with `Outcome.undefined`.
* Library and OpenCL calls are answered by an environment `Env`: it holds what `getopt`,
  `atoi`, `getline`, `fopen` and each OpenCL entry point report during the run.  What `main`
  does to the outside world is recorded as a list of `Event`s.
* `HASH_FUNCTIONS` is the table of the source.  `parse_args` and `main` take the table as an
  argument, so that they can also be studied on a populated table.
-/

namespace HashCL

/-! ## Outcomes, machine integers, buffers -/

/-- How a C function ends: it returns a value, it calls `abort()`, or it runs into undefined
behaviour. -/
inductive Outcome (α : Type) where
  | returns (a : α)
  | aborts
  | undefined
  deriving DecidableEq, Repr

/-- Number of values of the type `u32` (`unsigned int`, also `cl_uint`). -/
def U32_RANGE : Nat := 2 ^ 32

/-- Number of values of the type `size_t` (64 bits). -/
def SIZE_RANGE : Nat := 2 ^ 64

/-- The largest `int`. -/
def INT_MAX : Nat := 2147483647

/-- Conversion of a non-negative value to `u32`. -/
def to_u32 (n : Nat) : Nat := n % U32_RANGE

/-- Conversion of a non-negative value to `size_t`. -/
def to_size_t (n : Nat) : Nat := n % SIZE_RANGE

/-- Conversion of an `int` to `u32` (used for `args->platform = atoi(optarg)`). -/
def int_to_u32 (v : Int) : Nat := (v % (U32_RANGE : Int)).toNat

/-- The character `'\n'`. -/
def NEWLINE : Nat := 10

/-- The value of `sizeof(metadata_t)`: two `u32` fields. -/
def SIZEOF_METADATA : Nat := 8

/-- The call `realloc(buf, n)` for a buffer of `n` slots: the old contents up to the smaller of the
two sizes, then new slots (their contents are indeterminate; `fill` stands for them). -/
def realloc {α : Type} (fill : α) (buf : List α) (n : Nat) : List α :=
  buf.take n ++ List.replicate (n - buf.length) fill

/-- The call `memcpy(dst + off, src, n)`, as the resulting contents of `dst`. -/
def memcpy {α : Type} (dst : List α) (off : Nat) (src : List α) (n : Nat) : List α :=
  dst.take off ++ src.take n ++ dst.drop (off + n)

/-! ## The batch packer: the ingestion loop of `main` (lines 143-158) -/

/-- The record descriptor `metadata_t`: two `u32` fields. -/
structure metadata_t where
  offset : Nat
  length : Nat
  deriving DecidableEq, Repr

/-- The locals of `main` that the ingestion loop updates. -/
structure Batch where
  items : Nat
  metadata : List metadata_t
  data : List Nat
  data_len : Nat
  deriving DecidableEq, Repr

/-- The locals before the loop: `items = 0`, `metadata = NULL`, `data = NULL`,
`data_len = 0`. -/
def Batch.init : Batch := ⟨0, [], [], 0⟩

/-- The value of `line_size` after the `if` of lines 144-146, for a line of `getline`. -/
def stripped_size (line : List Nat) : Nat :=
  if line.get? (line.length - 1) = some NEWLINE then line.length - 1 else line.length

/-- One iteration of the ingestion loop (lines 144-157) on the line `getline` delivered.
`getline` never delivers an empty line; on one, `line[line_size - 1]` would read before the
buffer.  The store to `metadata + items` needs that slot to be inside the reallocated array,
and `memcpy` needs its destination range inside the reallocated arena. -/
def ingest_line (b : Batch) (line : List Nat) : Outcome Batch :=
  if line.length = 0 then Outcome.undefined
  else
    let line_size := stripped_size line
    let data := realloc 0 b.data (to_size_t (b.data_len + line_size))
    let metadata := realloc (metadata_t.mk 0 0) b.metadata (to_u32 (b.items + 1))
    if b.items < metadata.length ∧ b.data_len + line_size ≤ data.length then
      Outcome.returns
        { items := to_u32 (b.items + 1)
          metadata := metadata.set b.items ⟨to_u32 b.data_len, to_u32 line_size⟩
          data := memcpy data b.data_len line line_size
          data_len := to_size_t (b.data_len + line_size) }
    else Outcome.undefined

/-- The ingestion loop, run on the lines that the successive calls of `getline` deliver
before it reports end of input. -/
def ingest : Batch → List (List Nat) → Outcome Batch
  | b, [] => Outcome.returns b
  | b, line :: rest =>
    match ingest_line b line with
    | Outcome.returns b1 => ingest b1 rest
    | Outcome.aborts => Outcome.aborts
    | Outcome.undefined => Outcome.undefined

/-! ### Notions used to state the properties of the packer

The definitions `slice`, `chomp`, `payload`, `layout` and `packed` are not code of `hash.c`:
they say what a record, a stripped line and the expected batch are, and the theorems compare
the result of `ingest` with them. -/

/-- Specification: the bytes of a buffer in the range `[off, off + len)`. -/
def slice (data : List Nat) (off len : Nat) : List Nat :=
  (data.drop off).take len

/-- Specification: a line with one trailing newline removed if it was present, unchanged
otherwise. -/
def chomp (line : List Nat) : List Nat :=
  if line.getLast? = some NEWLINE then line.dropLast else line

/-- Specification: the number of payload bytes of a sequence of lines, the stripped newline
of each line not counted. -/
def payload (lines : List (List Nat)) : Nat :=
  (lines.map fun l => (chomp l).length).sum

/-- Specification: the descriptors of a sequence of records laid out back to back from
offset `off`, as `u32` values. -/
def layout : Nat → List (List Nat) → List metadata_t
  | _, [] => []
  | off, l :: ls =>
    ⟨to_u32 off, to_u32 (chomp l).length⟩ :: layout (off + (chomp l).length) ls

/-- Specification: the batch that holds exactly the given lines, with exact `items` and
`data_len` (the closed form that `ingest` is compared with). -/
def packed (lines : List (List Nat)) : Batch :=
  { items := lines.length
    metadata := layout 0 lines
    data := (lines.map chomp).flatten
    data_len := payload lines }

/-! ## Descriptors, arguments, environment, events -/

/-- The status `CL_SUCCESS` (the source names the value in `clGetErrorString`, `case 0`). -/
def CL_SUCCESS : Int := 0

/-- The status `CL_INVALID_VALUE` (`clGetErrorString`, `case -30`). -/
def CL_INVALID_VALUE : Int := -30

/-- The status `CL_INVALID_PLATFORM` (`clGetErrorString`, `case -32`). -/
def CL_INVALID_PLATFORM : Int := -32

/-- The constant `CL_DEVICE_TYPE_CPU` of the OpenCL headers. -/
def CL_DEVICE_TYPE_CPU : Nat := 2

/-- The constant `CL_DEVICE_TYPE_GPU` of the OpenCL headers. -/
def CL_DEVICE_TYPE_GPU : Nat := 4

/-- The constant `CL_DEVICE_TYPE_ALL` of the OpenCL headers. -/
def CL_DEVICE_TYPE_ALL : Nat := 4294967295

/-- The descriptor `hash_info_t`.  The three `char *` fields and the function pointer may be
`NULL` (`none`); `print` names the formatting routine. -/
structure hash_info_t where
  name : Option String
  program : Option String
  kernel : Option String
  hash_size : Nat
  print : Option Nat
  deriving DecidableEq, Repr

/-- The table of the source: `static hash_info_t HASH_FUNCTIONS[] = {NULL, NULL, NULL, 0, NULL};`,
one entry whose fields are all null. -/
def HASH_FUNCTIONS : List hash_info_t := [⟨none, none, none, 0, none⟩]

/-- The structure `args_t`; `hash_function` is the index of the table entry pointed at, `none`
while the field has not been assigned. -/
structure args_t where
  platform : Nat
  device_type : Nat
  hash_function : Option Nat
  deriving DecidableEq, Repr

/-- The diagnostics of the program.  A status is printed through `clGetErrorString`. -/
inductive Message where
  | option_requires_argument (optopt : Char)
  | unknown_option (optopt : Char)
  | missing_hash_function
  | invalid_hash_function (name : String)
  | valid_name (name : String)
  | failed_platform (status : Int)
  | failed_device (status : Int)
  | failed_context (status : Int)
  | failed_build (status : Int)
  deriving DecidableEq, Repr

/-- What the program does to the outside world, in order. -/
inductive Event where
  | usage
  | fprintf_stderr (m : Message)
  | printf (m : Message)
  | clGetPlatformIDs (num_entries : Nat)
  | clGetDeviceIDs (platform device_type num_entries : Nat)
  | clCreateContext
  | fopen (filename : String)
  | clCreateProgramWithSource
  | clBuildProgram
  | clCreateCommandQueueWithProperties
  | clCreateKernel (kernel_name : Option String)
  | malloc (size : Nat)
  | clCreateBuffer (size : Nat)
  | clSetKernelArg (arg_index : Nat)
  | clEnqueueNDRangeKernel (global_size : Nat)
  | clEnqueueReadBuffer (size : Nat)
  | print (routine offset : Nat)
  | clReleaseKernel
  | clReleaseCommandQueue
  | clReleaseProgram
  | clReleaseContext
  deriving DecidableEq, Repr

/-- One return of `getopt` other than `-1`: the value returned and the globals `optarg` and
`optopt` at that moment. -/
structure GetoptReturn where
  c : Char
  optarg : String
  optopt : Char

/-- The answers of the C library and of the OpenCL runtime during one run. -/
structure Env where
  /-- The values `getopt` returns before it returns `-1`. -/
  getopt : List GetoptReturn
  /-- The global `optind` once `getopt` has returned `-1`. -/
  optind : Nat
  /-- The library function `atoi`. -/
  atoi : String → Int
  /-- Status of `clGetPlatformIDs`. -/
  platforms_status : Int
  /-- The platforms `clGetPlatformIDs` enumerates, in its order. -/
  platforms : List Nat
  /-- Status of `clGetDeviceIDs(platform, device_type, 0, NULL, &n_devices)`. -/
  device_count_status : Int
  /-- Status of `clGetDeviceIDs(platform, device_type, 1, id, NULL)`. -/
  device_status : Int
  /-- Status `clCreateContext` stores through its last argument. -/
  context_status : Int
  /-- Whether `fopen(filename, "r")` succeeds. -/
  fopen : String → Bool
  /-- Status of `clBuildProgram`. -/
  build_status : Int
  /-- Status the `k`-th `clCreateBuffer` call of `hash` stores through its last argument. -/
  create_buffer_status : Nat → Int
  /-- Status of `clSetKernelArg` for each argument index. -/
  set_kernel_arg_status : Nat → Int
  /-- Status of `clEnqueueNDRangeKernel`. -/
  enqueue_kernel_status : Int
  /-- Status of `clEnqueueReadBuffer`. -/
  read_buffer_status : Int
  /-- The lines `getline` delivers from standard input before end of input. -/
  stdin : List (List Nat)

/-! ## `parse_args` (lines 178-242) -/

/-- The `while`/`switch` of lines 189-214 over the returns of `getopt`; `rest` is the code
after the loop, reached when `getopt` returns `-1`. -/
def getopt_loop (atoi : String → Int) (rest : args_t → Outcome (List Event × Int × args_t)) :
    List GetoptReturn → args_t → Outcome (List Event × Int × args_t)
  | [], args => rest args
  | g :: gs, args =>
    if g.c = 'h' then Outcome.returns ([Event.usage], 1, args)
    else if g.c = 'd' then
      if g.optarg = "cpu" then
        getopt_loop atoi rest gs { args with device_type := CL_DEVICE_TYPE_CPU }
      else if g.optarg = "gpu" then
        getopt_loop atoi rest gs { args with device_type := CL_DEVICE_TYPE_GPU }
      else getopt_loop atoi rest gs args
    else if g.c = 'p' then
      getopt_loop atoi rest gs { args with platform := int_to_u32 (atoi g.optarg) }
    else if g.c = '?' then
      if g.optopt = 'd' ∨ g.optopt = 'p' then
        Outcome.returns ([Event.fprintf_stderr (Message.option_requires_argument g.optopt)], 1, args)
      else
        Outcome.returns ([Event.fprintf_stderr (Message.unknown_option g.optopt)], 1, args)
    else Outcome.aborts

/-- The loop of lines 225-230 from index `i` on: the index of the first entry whose name
`strcmp` finds equal to `hash_function`.  `strcmp` on a null name is undefined. -/
def find_hash_function (hash_function : String) : List hash_info_t → Nat → Outcome (Option Nat)
  | [], _ => Outcome.returns none
  | h :: hs, i =>
    match h.name with
    | none => Outcome.undefined
    | some name =>
      if name = hash_function then Outcome.returns (some i)
      else find_hash_function hash_function hs (i + 1)

/-- The function `parse_args`, on the table `registry`: the diagnostics, the value returned and
the contents of `*args`. -/
def parse_args (registry : List hash_info_t) (argv : List String) (env : Env) :
    Outcome (List Event × Int × args_t) :=
  getopt_loop env.atoi
    (fun args =>
      if (argv.length : Int) - (env.optind : Int) < 1 then
        Outcome.returns ([Event.fprintf_stderr Message.missing_hash_function, Event.usage], 1, args)
      else
        match argv.get? env.optind with
        | none => Outcome.undefined
        | some hash_function =>
          match find_hash_function hash_function registry 0 with
          | Outcome.returns (some i) =>
            Outcome.returns ([], 0, { args with hash_function := some i })
          | Outcome.returns none =>
            Outcome.returns
              (Event.fprintf_stderr (Message.invalid_hash_function hash_function) ::
                registry.map (fun h => Event.fprintf_stderr (Message.valid_name (h.name.getD ""))),
               1, args)
          | Outcome.aborts => Outcome.aborts
          | Outcome.undefined => Outcome.undefined)
    env.getopt
    { platform := 0, device_type := CL_DEVICE_TYPE_ALL, hash_function := none }

/-! ## Device selection and program build (lines 244-301) -/

/-- The function `get_platform`: the calls made, the status returned and the platform stored
through `id` (`none`: nothing stored).  `clGetPlatformIDs(index + 1, platforms, NULL)` fills
the entries of the enumeration that fit in the `index + 1` (a `u32` sum) requested; reading
`platforms[index]` outside them is undefined. -/
def get_platform (env : Env) (index : Nat) : Outcome (List Event × Int × Option Nat) :=
  let ret := env.platforms_status
  let n_platforms := to_u32 env.platforms.length
  if ret ≠ CL_SUCCESS then Outcome.returns ([Event.clGetPlatformIDs 0], ret, none)
  else if index ≥ n_platforms then
    Outcome.returns ([Event.clGetPlatformIDs 0], CL_INVALID_PLATFORM, none)
  else
    let num_entries := to_u32 (index + 1)
    let platforms := env.platforms.take num_entries
    match platforms.get? index with
    | none => Outcome.undefined
    | some id =>
      Outcome.returns ([Event.clGetPlatformIDs 0, Event.clGetPlatformIDs num_entries], ret, some id)

/-- The function `get_device`: the calls made and the status returned. -/
def get_device (env : Env) (platform device_type : Nat) : List Event × Int :=
  let ret := env.device_count_status
  if ret ≠ CL_SUCCESS then ([Event.clGetDeviceIDs platform device_type 0], ret)
  else
    ([Event.clGetDeviceIDs platform device_type 0, Event.clGetDeviceIDs platform device_type 1],
      env.device_status)

/-- The function `build_program`: the calls made and the status returned. -/
def build_program (env : Env) (filename : Option String) : Outcome (List Event × Int) :=
  match filename with
  | none => Outcome.undefined
  | some f =>
    if env.fopen f = false then Outcome.returns ([Event.fopen f], CL_INVALID_VALUE)
    else
      Outcome.returns
        ([Event.fopen f, Event.clCreateProgramWithSource, Event.clBuildProgram], env.build_status)

/-! ## The dispatcher `hash` (lines 61-91) and `main` (lines 93-176) -/

/-- The function `hash` on its `u32` parameters `items` and `data_len`: the calls made and the
status returned.  `ret` is written by the three `clCreateBuffer` calls only; the values the
other five calls return are dropped. -/
def hash (env : Env) (h : hash_info_t) (items data_len : Nat) : List Event × Int :=
  let global_size := items
  let metadata_len := to_size_t (items * SIZEOF_METADATA)
  let hashes_len := to_size_t (items * h.hash_size)
  let _ret := env.create_buffer_status 0
  let _ret := env.create_buffer_status 1
  let ret := env.create_buffer_status 2
  ([Event.malloc hashes_len,
    Event.clCreateBuffer metadata_len, Event.clCreateBuffer data_len,
    Event.clCreateBuffer hashes_len,
    Event.clSetKernelArg 0, Event.clSetKernelArg 1, Event.clSetKernelArg 2,
    Event.clEnqueueNDRangeKernel global_size, Event.clEnqueueReadBuffer hashes_len], ret)

/-- The loop of lines 163-165 from the value `i` of the `int` counter on.  The counter is
never negative, so its conversion to `unsigned` in `i < items` keeps its value; `++i` at
`INT_MAX` is a signed overflow; the offset `i * h->hash_size` is a `size_t` product. -/
def print_loop (h : hash_info_t) (items : Nat) (i : Nat) : Outcome (List Event) :=
  if i < items then
    match h.print with
    | none => Outcome.undefined
    | some routine =>
      if i + 1 > INT_MAX then Outcome.undefined
      else
        match print_loop h items (i + 1) with
        | Outcome.returns events =>
          Outcome.returns (Event.print routine (to_size_t (i * h.hash_size)) :: events)
        | Outcome.aborts => Outcome.aborts
        | Outcome.undefined => Outcome.undefined
  else Outcome.returns []
termination_by items - i

/-- The four releases of lines 169-172, in their order. -/
def releases : List Event :=
  [Event.clReleaseKernel, Event.clReleaseCommandQueue, Event.clReleaseProgram,
    Event.clReleaseContext]

/-- Lines 113-141 of `main`: the calls made, the value of `ret`, and the descriptor `h` when
line 141 is passed (`none`: one of the `goto err` was taken). -/
def setup (registry : List hash_info_t) (argv : List String) (env : Env) :
    Outcome (List Event × Int × Option hash_info_t) :=
  match parse_args registry argv env with
  | Outcome.aborts => Outcome.aborts
  | Outcome.undefined => Outcome.undefined
  | Outcome.returns (e0, r, args) =>
    if r ≠ 0 then Outcome.returns (e0, CL_SUCCESS, none)
    else
      match args.hash_function.bind registry.get? with
      | none => Outcome.undefined
      | some h =>
        match get_platform env args.platform with
        | Outcome.aborts => Outcome.aborts
        | Outcome.undefined => Outcome.undefined
        | Outcome.returns (e1, ret, platform) =>
          if ret ≠ 0 then
            Outcome.returns
              (e0 ++ e1 ++ [Event.fprintf_stderr (Message.failed_platform ret)], ret, none)
          else
            match get_device env (platform.getD 0) args.device_type with
            | (e2, ret) =>
              if ret ≠ 0 then
                Outcome.returns
                  (e0 ++ e1 ++ e2 ++ [Event.fprintf_stderr (Message.failed_device ret)], ret, none)
              else
                if env.context_status ≠ CL_SUCCESS then
                  Outcome.returns
                    (e0 ++ e1 ++ e2 ++ [Event.clCreateContext,
                      Event.printf (Message.failed_context env.context_status)],
                      env.context_status, none)
                else
                  match build_program env h.program with
                  | Outcome.aborts => Outcome.aborts
                  | Outcome.undefined => Outcome.undefined
                  | Outcome.returns (e3, ret) =>
                    if ret ≠ 0 then
                      Outcome.returns
                        (e0 ++ e1 ++ e2 ++ [Event.clCreateContext] ++ e3 ++
                          [Event.fprintf_stderr (Message.failed_build ret)], ret, none)
                    else
                      Outcome.returns
                        (e0 ++ e1 ++ e2 ++ [Event.clCreateContext] ++ e3 ++
                          [Event.clCreateCommandQueueWithProperties,
                            Event.clCreateKernel h.kernel], ret, some h)

/-- Lines 143-172 of `main`: ingestion, the call of `hash` (its value is dropped), the print
loop and the releases. -/
def run_batch (env : Env) (h : hash_info_t) : Outcome (List Event) :=
  match ingest Batch.init env.stdin with
  | Outcome.aborts => Outcome.aborts
  | Outcome.undefined => Outcome.undefined
  | Outcome.returns b =>
    match print_loop h b.items 0 with
    | Outcome.aborts => Outcome.aborts
    | Outcome.undefined => Outcome.undefined
    | Outcome.returns prints =>
      Outcome.returns ((hash env h b.items (to_u32 b.data_len)).1 ++ prints ++ releases)

/-- The function `main`: the events of the run and the value returned. -/
def main (registry : List hash_info_t) (argv : List String) (env : Env) :
    Outcome (List Event × Int) :=
  match setup registry argv env with
  | Outcome.aborts => Outcome.aborts
  | Outcome.undefined => Outcome.undefined
  | Outcome.returns (events, ret, none) => Outcome.returns (events, ret)
  | Outcome.returns (events, ret, some h) =>
    match run_batch env h with
    | Outcome.aborts => Outcome.aborts
    | Outcome.undefined => Outcome.undefined
    | Outcome.returns batch_events => Outcome.returns (events ++ batch_events, ret)

/-! ## A populated table and a cooperative environment, for concrete runs -/

/-- A usable descriptor: name `md5`, source file `md5.cl`, kernel `md5`, 16-byte digests,
formatting routine 0. -/
def sample_descriptor : hash_info_t := ⟨some "md5", some "md5.cl", some "md5", 16, some 0⟩

/-- A table with the sample descriptor as its only entry. -/
def sample_registry : List hash_info_t := [sample_descriptor]

/-- The command line `hash md5`. -/
def sample_argv : List String := ["hash", "md5"]

/-- An environment in which every call succeeds: no options on the command line, one
platform (handle 7), the source file exists, every OpenCL status is `CL_SUCCESS`; standard
input holds the given lines. -/
def sample_env (stdin : List (List Nat)) : Env :=
  { getopt := [], optind := 1, atoi := fun _ => 0,
    platforms_status := 0, platforms := [7],
    device_count_status := 0, device_status := 0, context_status := 0,
    fopen := fun _ => true, build_status := 0,
    create_buffer_status := fun _ => 0, set_kernel_arg_status := fun _ => 0,
    enqueue_kernel_status := 0, read_buffer_status := 0,
    stdin := stdin }

/-- The events of lines 113-141 in the sample environment. -/
def sample_setup_events : List Event :=
  [Event.clGetPlatformIDs 0, Event.clGetPlatformIDs 1,
    Event.clGetDeviceIDs 7 CL_DEVICE_TYPE_ALL 0, Event.clGetDeviceIDs 7 CL_DEVICE_TYPE_ALL 1,
    Event.clCreateContext, Event.fopen "md5.cl", Event.clCreateProgramWithSource,
    Event.clBuildProgram, Event.clCreateCommandQueueWithProperties,
    Event.clCreateKernel (some "md5")]

/-- The sample environment with a failing dispatch: the first two `clCreateBuffer` calls
report `CL_INVALID_BUFFER_SIZE` (-61), every `clSetKernelArg` reports
`CL_INVALID_MEM_OBJECT` (-38), `clEnqueueNDRangeKernel` reports `CL_INVALID_KERNEL_ARGS`
(-52), `clEnqueueReadBuffer` reports `CL_INVALID_MEM_OBJECT`; the third `clCreateBuffer`
reports `third`. -/
def failing_dispatch_env (third : Int) (stdin : List (List Nat)) : Env :=
  { sample_env stdin with
    create_buffer_status := fun k => if k = 2 then third else -61
    set_kernel_arg_status := fun _ => -38
    enqueue_kernel_status := -52
    read_buffer_status := -38 }

/-- The sample environment without the kernel source file: `fopen` fails. -/
def missing_source_env : Env :=
  { sample_env [] with fopen := fun _ => false }

/-! ## Facts about the packer -/

theorem stripped_size_eq (line : List Nat) : stripped_size line = (chomp line).length := by
  unfold stripped_size chomp
  rw [List.getLast?_eq_getElem?, List.get?_eq_getElem?]
  split <;> simp

theorem take_stripped_size (line : List Nat) : line.take (stripped_size line) = chomp line := by
  unfold stripped_size chomp
  rw [List.getLast?_eq_getElem?, List.get?_eq_getElem?, List.dropLast_eq_take]
  split <;> simp

theorem payload_append (xs ys : List (List Nat)) :
    payload (xs ++ ys) = payload xs + payload ys := by
  simp [payload, List.sum_append]

theorem payload_singleton (l : List Nat) : payload [l] = (chomp l).length := by
  simp [payload]

theorem layout_length (off : Nat) (ls : List (List Nat)) : (layout off ls).length = ls.length := by
  induction ls generalizing off with
  | nil => rfl
  | cons l ls ih => simp [layout, ih]

theorem layout_append (off : Nat) (xs ys : List (List Nat)) :
    layout off (xs ++ ys) = layout off xs ++ layout (off + payload xs) ys := by
  induction xs generalizing off with
  | nil => simp [layout, payload]
  | cons l ls ih =>
    have h := ih (off + (chomp l).length)
    have hp : payload (l :: ls) = (chomp l).length + payload ls := by simp [payload]
    rw [Nat.add_assoc] at h
    simp only [List.cons_append, layout, hp]
    exact congrArg _ h

theorem packed_data_length (ls : List (List Nat)) : (packed ls).data.length = payload ls := by
  simp [packed, payload, List.length_flatten, Function.comp_def]

theorem ingest_line_packed (ls : List (List Nat)) (l : List Nat) (hl : l ≠ [])
    (hn : ls.length + 1 < U32_RANGE) (hp : payload ls + (chomp l).length < SIZE_RANGE) :
    ingest_line (packed ls) l = Outcome.returns (packed (ls ++ [l])) := by
  have hlen : l.length ≠ 0 := by simpa using hl
  have hD := packed_data_length ls
  unfold ingest_line
  rw [if_neg hlen]
  simp only [packed] at hD ⊢
  simp only [stripped_size_eq, to_size_t, to_u32, Nat.mod_eq_of_lt hn, Nat.mod_eq_of_lt hp]
  have hdata : realloc 0 (List.map chomp ls).flatten (payload ls + (chomp l).length)
      = (List.map chomp ls).flatten ++ List.replicate (chomp l).length 0 := by
    unfold realloc
    rw [List.take_of_length_le (by omega), hD, Nat.add_sub_cancel_left]
  have hmeta : realloc (metadata_t.mk 0 0) (layout 0 ls) (ls.length + 1)
      = layout 0 ls ++ [metadata_t.mk 0 0] := by
    unfold realloc
    rw [List.take_of_length_le (by rw [layout_length]; omega), layout_length,
      Nat.add_sub_cancel_left]
    rfl
  rw [hdata, hmeta]
  have hcond : ls.length < (layout 0 ls ++ [metadata_t.mk 0 0]).length ∧
      payload ls + (chomp l).length ≤
        ((List.map chomp ls).flatten ++ List.replicate (chomp l).length 0).length := by
    simp [layout_length, hD]
  rw [if_pos hcond]
  congr 1
  have hset : (layout 0 ls ++ [metadata_t.mk 0 0]).set ls.length
      ⟨payload ls % U32_RANGE, (chomp l).length % U32_RANGE⟩
      = layout 0 (ls ++ [l]) := by
    rw [layout_append, List.set_append, if_neg (by rw [layout_length]; omega), layout_length]
    simp [layout, to_u32]
  have hcpy : memcpy ((List.map chomp ls).flatten ++ List.replicate (chomp l).length 0)
      (payload ls) l (chomp l).length = (List.map chomp (ls ++ [l])).flatten := by
    unfold memcpy
    rw [← hD, List.take_left, List.drop_of_length_le (by simp)]
    rw [← stripped_size_eq, take_stripped_size]
    simp
  rw [hset, hcpy, payload_append, payload_singleton]
  simp

theorem ingest_packed (rest ls : List (List Nat)) (hne : ∀ l ∈ rest, l ≠ [])
    (hn : (ls ++ rest).length < U32_RANGE) (hp : payload (ls ++ rest) < SIZE_RANGE) :
    ingest (packed ls) rest = Outcome.returns (packed (ls ++ rest)) := by
  induction rest generalizing ls with
  | nil => simp [ingest]
  | cons l rest ih =>
    have hn1 : ls.length + 1 < U32_RANGE := by
      simp only [List.length_append, List.length_cons] at hn; omega
    have hp1 : payload ls + (chomp l).length < SIZE_RANGE := by
      rw [show l :: rest = [l] ++ rest by rfl, payload_append, payload_append,
        payload_singleton] at hp
      omega
    have hrest : ∀ x ∈ rest, x ≠ [] := fun x hx => hne x (List.mem_cons_of_mem _ hx)
    have hl : l ≠ [] := hne l (List.mem_cons_self _ _)
    have hassoc : ls ++ l :: rest = (ls ++ [l]) ++ rest := by simp
    rw [ingest, ingest_line_packed ls l hl hn1 hp1]
    rw [hassoc] at hn hp ⊢
    exact ih (ls ++ [l]) hrest hn hp

theorem ingest_init_packed (lines : List (List Nat)) (hne : ∀ l ∈ lines, l ≠ [])
    (hn : lines.length < U32_RANGE) (hp : payload lines < SIZE_RANGE) :
    ingest Batch.init lines = Outcome.returns (packed lines) := by
  have h := ingest_packed lines [] hne (by simpa using hn) (by simpa using hp)
  simpa [packed, layout, payload, Batch.init] using h

theorem ingest_append (b : Batch) (xs ys : List (List Nat)) :
    ingest b (xs ++ ys) =
      match ingest b xs with
      | Outcome.returns b1 => ingest b1 ys
      | Outcome.aborts => Outcome.aborts
      | Outcome.undefined => Outcome.undefined := by
  induction xs generalizing b with
  | nil => simp [ingest]
  | cons x xs ih =>
    simp only [List.cons_append, ingest]
    cases ingest_line b x with
    | returns b1 => exact ih b1
    | aborts => rfl
    | undefined => rfl

theorem ingest_line_full (b : Batch) (l : List Nat) (hfull : b.items + 1 = U32_RANGE) :
    ingest_line b l = Outcome.undefined := by
  unfold ingest_line
  split
  · rfl
  · simp [to_u32, hfull, realloc]

theorem payload_take_le (lines : List (List Nat)) (k : Nat) :
    payload (lines.take k) ≤ payload lines := by
  conv_rhs => rw [← List.take_append_drop k lines, payload_append]
  omega

theorem ingest_too_many (lines : List (List Nat)) (hne : ∀ l ∈ lines, l ≠ [])
    (hp : payload lines < SIZE_RANGE) (hn : U32_RANGE ≤ lines.length) :
    ingest Batch.init lines = Outcome.undefined := by
  have hU : U32_RANGE = 4294967296 := by decide
  have hsplit : lines = lines.take (U32_RANGE - 1) ++ lines.drop (U32_RANGE - 1) :=
    (List.take_append_drop _ _).symm
  have hlen : (lines.take (U32_RANGE - 1)).length = U32_RANGE - 1 := by
    rw [List.length_take]; omega
  have hpre : ingest Batch.init (lines.take (U32_RANGE - 1)) =
      Outcome.returns (packed (lines.take (U32_RANGE - 1))) :=
    ingest_init_packed _ (fun l hl => hne l (List.mem_of_mem_take hl)) (by omega)
      (Nat.lt_of_le_of_lt (payload_take_le _ _) hp)
  have hdrop : lines.drop (U32_RANGE - 1) ≠ [] := by
    intro h
    have := congrArg List.length h
    simp only [List.length_drop, List.length_nil] at this
    omega
  rw [hsplit, ingest_append, hpre]
  cases hd : lines.drop (U32_RANGE - 1) with
  | nil => exact absurd hd hdrop
  | cons l rest =>
    simp only [ingest]
    rw [ingest_line_full _ l (by simp only [packed, hlen]; omega)]

theorem ingest_returns_iff (lines : List (List Nat)) (hne : ∀ l ∈ lines, l ≠ [])
    (hp : payload lines < SIZE_RANGE) (b : Batch) :
    ingest Batch.init lines = Outcome.returns b ↔
      lines.length < U32_RANGE ∧ b = packed lines := by
  by_cases hn : lines.length < U32_RANGE
  · rw [ingest_init_packed lines hne hn hp]
    constructor
    · intro h; exact ⟨hn, (Outcome.returns.inj h).symm⟩
    · rintro ⟨-, rfl⟩; rfl
  · rw [ingest_too_many lines hne hp (by omega)]
    constructor
    · intro h; cases h
    · rintro ⟨h, -⟩; exact absurd h hn

theorem layout_get? (off : Nat) (ls : List (List Nat)) (i : Nat) :
    (layout off ls).get? i =
      (ls.get? i).map fun l =>
        metadata_t.mk (to_u32 (off + payload (ls.take i))) (to_u32 (chomp l).length) := by
  induction ls generalizing off i with
  | nil => simp [layout]
  | cons l ls ih =>
    cases i with
    | zero => simp [layout, payload]
    | succ i =>
      have h := ih (off + (chomp l).length) i
      simp only [List.get?_eq_getElem?] at h
      simp only [layout, List.get?_eq_getElem?, List.getElem?_cons_succ, List.take_succ_cons, h]
      have hp : payload (l :: ls.take i) = (chomp l).length + payload (ls.take i) := by
        simp [payload]
      rw [hp, Nat.add_assoc]

theorem split_at_get (ls : List (List Nat)) (i : Nat) (l : List Nat)
    (h : ls.get? i = some l) : ls = ls.take i ++ l :: ls.drop (i + 1) := by
  rw [List.get?_eq_getElem?] at h
  obtain ⟨hi, hl⟩ := List.getElem?_eq_some_iff.mp h
  rw [← hl, ← List.drop_eq_getElem_cons hi, List.take_append_drop]

theorem payload_get_le (ls : List (List Nat)) (i : Nat) (l : List Nat)
    (h : ls.get? i = some l) : payload (ls.take i) + (chomp l).length ≤ payload ls := by
  have hsplit := split_at_get ls i l h
  have hcons : payload (l :: ls.drop (i + 1)) = (chomp l).length + payload (ls.drop (i + 1)) := by
    simp [payload]
  conv_rhs => rw [hsplit, payload_append, hcons]
  omega

theorem slice_packed (ls : List (List Nat)) (i : Nat) (l : List Nat)
    (h : ls.get? i = some l) :
    slice (packed ls).data (payload (ls.take i)) (chomp l).length = chomp l := by
  have hsplit := split_at_get ls i l h
  have hdata : (packed ls).data =
      (packed (ls.take i)).data ++ (chomp l ++ (packed (ls.drop (i + 1))).data) := by
    simp only [packed]
    conv_lhs => rw [hsplit]
    simp
  rw [hdata, slice, ← packed_data_length, List.drop_left, List.take_left]

theorem sum_layout_length (off : Nat) (ls : List (List Nat)) (hp : payload ls < U32_RANGE) :
    ((layout off ls).map metadata_t.length).sum = payload ls := by
  induction ls generalizing off with
  | nil => simp [layout, payload]
  | cons l ls ih =>
    have hcons : payload (l :: ls) = (chomp l).length + payload ls := by simp [payload]
    rw [hcons] at hp ⊢
    simp only [layout, List.map_cons, List.sum_cons, ih (off + (chomp l).length) (by omega)]
    rw [to_u32, Nat.mod_eq_of_lt (by omega)]

theorem packed_metadata_get? (ls : List (List Nat)) (hp : payload ls < U32_RANGE) (i : Nat) :
    (packed ls).metadata.get? i =
      (ls.get? i).map fun l => metadata_t.mk (payload (ls.take i)) (chomp l).length := by
  simp only [packed, layout_get?, Nat.zero_add]
  cases h : ls.get? i with
  | none => rfl
  | some l =>
    have hle := payload_get_le ls i l h
    simp only [Option.map_some', to_u32]
    rw [Nat.mod_eq_of_lt (by omega), Nat.mod_eq_of_lt (by omega)]

theorem payload_take_succ (ls : List (List Nat)) (i : Nat) (l : List Nat)
    (h : ls.get? i = some l) :
    payload (ls.take (i + 1)) = payload (ls.take i) + (chomp l).length := by
  rw [List.get?_eq_getElem?] at h
  rw [List.take_succ, h, payload_append]
  simp [payload]

theorem payload_take_mono (ls : List (List Nat)) (i j : Nat) (hij : i ≤ j) :
    payload (ls.take i) ≤ payload (ls.take j) := by
  have h := payload_take_le (ls.take j) i
  rwa [List.take_take, Nat.min_eq_left hij] at h

theorem payload_cover (ls : List (List Nat)) (p : Nat) (hp : p < payload ls) :
    ∃ i l, ls.get? i = some l ∧ payload (ls.take i) ≤ p ∧
      p < payload (ls.take i) + (chomp l).length := by
  induction ls generalizing p with
  | nil => simp [payload] at hp
  | cons l ls ih =>
    have hcons : payload (l :: ls) = (chomp l).length + payload ls := by simp [payload]
    by_cases h0 : p < (chomp l).length
    · exact ⟨0, l, rfl, by simp [payload], by simpa [payload] using h0⟩
    · obtain ⟨i, l1, hget, hlo, hhi⟩ := ih (p - (chomp l).length) (by omega)
      refine ⟨i + 1, l1, by simpa using hget, ?_, ?_⟩
      · have : payload (l :: ls.take i) = (chomp l).length + payload (ls.take i) := by
          simp [payload]
        rw [List.take_succ_cons, this]; omega
      · have : payload (l :: ls.take i) = (chomp l).length + payload (ls.take i) := by
          simp [payload]
        rw [List.take_succ_cons, this]; omega

/-! ## The batch packer: round trip, arena coverage, size limits -/

/-- C1. Round trip of the batch packer.  For lines of `getline` (each non-empty) whose total
stripped length is below `2 ^ 32`: the loop ends in a defined state whenever there are fewer
than `2 ^ 32` lines, and in every state `b` in which it ends, `items` is the number of lines,
the slice of the arena that record `i` describes is line `i` with one trailing newline
removed if present and unchanged otherwise, and the record lengths add up to `data_len`,
which is the number of payload bytes read. -/
theorem packer_round_trip (lines : List (List Nat)) (hne : ∀ l ∈ lines, l ≠ [])
    (htotal : payload lines < 2 ^ 32) :
    (lines.length < 2 ^ 32 → ∃ b, ingest Batch.init lines = Outcome.returns b) ∧
    ∀ b, ingest Batch.init lines = Outcome.returns b →
      b.items = lines.length ∧ b.metadata.length = b.items ∧
      (∀ i, i < b.items → ∃ m l, b.metadata.get? i = some m ∧ lines.get? i = some l ∧
        slice b.data m.offset m.length = chomp l) ∧
      (b.metadata.map metadata_t.length).sum = b.data_len ∧
      b.data_len = payload lines := by
  have hU : U32_RANGE = 2 ^ 32 := rfl
  have hS : payload lines < SIZE_RANGE := by
    have : SIZE_RANGE = 2 ^ 64 := rfl
    omega
  refine ⟨fun hn => ⟨packed lines, ingest_init_packed lines hne (hU ▸ hn) hS⟩, ?_⟩
  intro b hb
  obtain ⟨-, rfl⟩ := (ingest_returns_iff lines hne hS b).mp hb
  refine ⟨rfl, by simp [packed, layout_length], ?_, ?_, rfl⟩
  · intro i hi
    have hi1 : i < lines.length := hi
    have hget : lines.get? i = some lines[i] := by
      rw [List.get?_eq_getElem?]; exact List.getElem?_eq_getElem hi1
    refine ⟨⟨payload (lines.take i), (chomp lines[i]).length⟩, lines[i], ?_, hget, ?_⟩
    · rw [packed_metadata_get? lines (hU ▸ htotal), hget]; rfl
    · exact slice_packed lines i _ hget
  · exact sum_layout_length 0 lines (hU ▸ htotal)

/-- Witness of C1 on the three lines `abc\n`, `\n`, `xyz`. -/
theorem packer_round_trip_witness :
    (∀ l ∈ [[97, 98, 99, 10], [10], [120, 121, 122]], l ≠ ([] : List Nat)) ∧
    payload [[97, 98, 99, 10], [10], [120, 121, 122]] < 2 ^ 32 ∧
    (∃ b, ingest Batch.init [[97, 98, 99, 10], [10], [120, 121, 122]] = Outcome.returns b) ∧
    ∀ b, ingest Batch.init [[97, 98, 99, 10], [10], [120, 121, 122]] = Outcome.returns b →
      b.items = 3 ∧ b.data_len = 6 := by
  have h := packer_round_trip [[97, 98, 99, 10], [10], [120, 121, 122]] (by decide) (by decide)
  refine ⟨by decide, by decide, h.1 (by decide), fun b hb => ?_⟩
  obtain ⟨h1, -, -, -, h5⟩ := h.2 b hb
  exact ⟨h1, h5⟩

/-- C2. Arena coverage after every iteration.  For lines of `getline` (each non-empty) whose
total stripped length is below `2 ^ 32`, in the state `b` after `k` iterations: the first
record starts at offset 0, each further record starts where the one before it ends, the last
record ends at `data_len`, which is the length of the arena; hence the records are in
increasing order without overlap and every arena position lies in one of them.  The state
after `k` iterations is defined whenever `k` is below `2 ^ 32`. -/
theorem packer_arena_coverage (lines : List (List Nat)) (hne : ∀ l ∈ lines, l ≠ [])
    (htotal : payload lines < 2 ^ 32) (k : Nat) (hk : k ≤ lines.length) :
    (k < 2 ^ 32 → ∃ b, ingest Batch.init (lines.take k) = Outcome.returns b) ∧
    ∀ b, ingest Batch.init (lines.take k) = Outcome.returns b →
      b.items = k ∧ b.metadata.length = k ∧ b.data.length = b.data_len ∧
      (∀ m, b.metadata.get? 0 = some m → m.offset = 0) ∧
      (∀ i m m1, b.metadata.get? i = some m → b.metadata.get? (i + 1) = some m1 →
        m1.offset = m.offset + m.length) ∧
      (∀ m, b.metadata.get? (b.items - 1) = some m → m.offset + m.length = b.data_len) ∧
      (b.items = 0 → b.data_len = 0) ∧
      (∀ i j m m1, i < j → b.metadata.get? i = some m → b.metadata.get? j = some m1 →
        m.offset ≤ m1.offset ∧ m.offset + m.length ≤ m1.offset) ∧
      (∀ p, p < b.data_len → ∃ i m, b.metadata.get? i = some m ∧
        m.offset ≤ p ∧ p < m.offset + m.length) := by
  have hU : U32_RANGE = 2 ^ 32 := rfl
  have hlen : (lines.take k).length = k := by rw [List.length_take]; omega
  have hne1 : ∀ l ∈ lines.take k, l ≠ [] := fun l hl => hne l (List.mem_of_mem_take hl)
  have hp32 : payload (lines.take k) < U32_RANGE :=
    Nat.lt_of_le_of_lt (payload_take_le lines k) (hU ▸ htotal)
  have hS : payload (lines.take k) < SIZE_RANGE := by
    have : SIZE_RANGE = 2 ^ 64 := rfl
    omega
  generalize lines.take k = ls at hlen hne1 hp32 hS
  refine ⟨fun hn => ⟨packed ls, ingest_init_packed ls hne1 (by omega) hS⟩, ?_⟩
  intro b hb
  obtain ⟨-, rfl⟩ := (ingest_returns_iff ls hne1 hS b).mp hb
  have hmeta := packed_metadata_get? ls hp32
  have key : ∀ i m, (packed ls).metadata.get? i = some m →
      ∃ l, ls.get? i = some l ∧ m.offset = payload (ls.take i) ∧
        m.length = (chomp l).length := by
    intro i m hm
    rw [hmeta] at hm
    cases hl : ls.get? i with
    | none => rw [hl] at hm; cases hm
    | some l =>
      rw [hl] at hm
      cases hm
      exact ⟨l, rfl, rfl, rfl⟩
  refine ⟨hlen, by simp [packed, layout_length, hlen], packed_data_length ls,
    ?_, ?_, ?_, ?_, ?_, ?_⟩
  · intro m hm
    obtain ⟨l, -, ho, -⟩ := key 0 m hm
    simpa [payload] using ho
  · intro i m m1 hm hm1
    obtain ⟨l, hl, ho, hlen1⟩ := key i m hm
    obtain ⟨l1, -, ho1, -⟩ := key (i + 1) m1 hm1
    rw [ho1, ho, hlen1, payload_take_succ ls i l hl]
  · intro m hm
    obtain ⟨l, hl, ho, hlen1⟩ := key _ m hm
    have hi : (packed ls).items - 1 < ls.length := by
      rw [List.get?_eq_getElem?] at hl
      exact (List.getElem?_eq_some_iff.mp hl).1
    have hsucc := payload_take_succ ls _ l hl
    have hitems : (packed ls).items = ls.length := rfl
    rw [hitems] at hi hsucc
    rw [show ls.length - 1 + 1 = ls.length by omega, List.take_length] at hsucc
    rw [ho, hlen1, hitems]
    exact hsucc.symm
  · intro h0
    have hnil : ls = [] := List.length_eq_zero.mp h0
    subst hnil
    rfl
  · intro i j m m1 hij hm hm1
    obtain ⟨l, hl, ho, hlen1⟩ := key i m hm
    obtain ⟨l1, -, ho1, -⟩ := key j m1 hm1
    have hmono := payload_take_mono ls (i + 1) j hij
    rw [payload_take_succ ls i l hl] at hmono
    rw [ho, ho1, hlen1]
    omega
  · intro p hp
    obtain ⟨i, l, hl, hlo, hhi⟩ := payload_cover ls p hp
    refine ⟨i, ⟨payload (ls.take i), (chomp l).length⟩, ?_, hlo, hhi⟩
    rw [hmeta, hl]; rfl

/-- Witness of C2 on the first two of the three lines `abc\n`, `\n`, `xyz`. -/
theorem packer_arena_coverage_witness :
    (∀ l ∈ [[97, 98, 99, 10], [10], [120, 121, 122]], l ≠ ([] : List Nat)) ∧
    payload [[97, 98, 99, 10], [10], [120, 121, 122]] < 2 ^ 32 ∧
    2 ≤ [[97, 98, 99, 10], [10], [120, 121, 122]].length ∧
    (∃ b, ingest Batch.init ([[97, 98, 99, 10], [10], [120, 121, 122]].take 2) =
      Outcome.returns b) ∧
    ∀ b, ingest Batch.init ([[97, 98, 99, 10], [10], [120, 121, 122]].take 2) =
        Outcome.returns b →
      b.items = 2 ∧ b.data.length = b.data_len := by
  have h := packer_arena_coverage [[97, 98, 99, 10], [10], [120, 121, 122]]
    (by decide) (by decide) 2 (by decide)
  refine ⟨by decide, by decide, by decide, h.1 (by decide), fun b hb => ?_⟩
  obtain ⟨h1, -, h3, -⟩ := h.2 b hb
  exact ⟨h1, h3⟩

theorem chomp_append_newline (xs : List Nat) : chomp (xs ++ [NEWLINE]) = xs := by
  simp [chomp]

/-- A final byte other than the newline (a carriage return, say) is kept. -/
theorem chomp_append_other (xs : List Nat) (c : Nat) (hc : c ≠ NEWLINE) :
    chomp (xs ++ [c]) = xs ++ [c] := by
  simp [chomp, hc]

/-- Only one newline is removed. -/
theorem chomp_newline_only : chomp [NEWLINE] = [] ∧ chomp [13, NEWLINE] = [13] ∧
    chomp [NEWLINE, NEWLINE] = [NEWLINE] := by
  decide

theorem ingest_long_record (body : List Nat) (hbody : body.length = 2 ^ 32) :
    ∃ b, ingest Batch.init [body ++ [NEWLINE]] = Outcome.returns b ∧
      b.metadata = [⟨0, 0⟩] ∧ (chomp (body ++ [NEWLINE])).length = 2 ^ 32 ∧
      b.data_len = 2 ^ 32 ∧ to_u32 b.data_len = 0 := by
  have hlen : (chomp (body ++ [NEWLINE])).length = 2 ^ 32 := by
    rw [chomp_append_newline, hbody]
  have hpay : payload [body ++ [NEWLINE]] = 2 ^ 32 := by
    rw [payload_singleton, hlen]
  refine ⟨packed [body ++ [NEWLINE]], ?_, ?_, hlen, hpay, ?_⟩
  · apply ingest_init_packed
    · intro l hl
      rw [List.mem_singleton] at hl
      subst hl
      exact List.append_ne_nil_of_right_ne_nil _ (List.cons_ne_nil _ _)
    · show 1 < U32_RANGE
      decide
    · rw [hpay]; decide
  · simp only [packed, layout, hlen, to_u32, U32_RANGE, Nat.mod_self, Nat.zero_mod]
  · show to_u32 (payload _) = 0
    rw [hpay]
    simp only [to_u32, U32_RANGE, Nat.mod_self]

/-- Counterexample to C9: one record of `2 ^ 32` bytes `a` followed by a newline.  The loop
ends in a defined state whose only descriptor has `length = 0`, while the stripped line has
`2 ^ 32` bytes; `data_len` is `2 ^ 32` and the `u32` value handed to `hash` is 0. -/
theorem packer_truncates_long_record :
    ∃ b, ingest Batch.init [List.replicate (2 ^ 32) 97 ++ [NEWLINE]] = Outcome.returns b ∧
      b.metadata = [⟨0, 0⟩] ∧
      (chomp (List.replicate (2 ^ 32) 97 ++ [NEWLINE])).length = 2 ^ 32 ∧
      b.data_len = 2 ^ 32 ∧ to_u32 b.data_len = 0 :=
  ingest_long_record (List.replicate (2 ^ 32) 97) (List.length_replicate _ _)

/-- C9, amended.  For lines of `getline` (each non-empty), fewer than `2 ^ 32` of them, whose
total stripped length is below `2 ^ 32`: the loop ends in a defined state in which the record
count is the number of lines, the offset stored for record `i` is the arena length before
its append, the length stored is the stripped length of line `i`, and `data_len` as well as
the `u32` value handed to `hash` is the arena length. -/
theorem packer_exact_below_limits (lines : List (List Nat)) (hne : ∀ l ∈ lines, l ≠ [])
    (hcount : lines.length < 2 ^ 32) (htotal : payload lines < 2 ^ 32) :
    ∃ b, ingest Batch.init lines = Outcome.returns b ∧
      b.items = lines.length ∧
      (∀ i l, lines.get? i = some l →
        b.metadata.get? i = some ⟨payload (lines.take i), (chomp l).length⟩) ∧
      b.data.length = payload lines ∧
      b.data_len = payload lines ∧ to_u32 b.data_len = payload lines := by
  have hU : U32_RANGE = 2 ^ 32 := rfl
  have hS : payload lines < SIZE_RANGE := by
    have : SIZE_RANGE = 2 ^ 64 := rfl
    omega
  refine ⟨packed lines, ingest_init_packed lines hne (hU ▸ hcount) hS, rfl, ?_,
    packed_data_length lines, rfl, ?_⟩
  · intro i l hl
    rw [packed_metadata_get? lines (hU ▸ htotal), hl]; rfl
  · show to_u32 (payload lines) = payload lines
    rw [to_u32, Nat.mod_eq_of_lt (hU ▸ htotal)]

/-- Witness of the amended C9 on the three lines `abc\n`, `\n`, `xyz`. -/
theorem packer_exact_below_limits_witness :
    (∀ l ∈ [[97, 98, 99, 10], [10], [120, 121, 122]], l ≠ ([] : List Nat)) ∧
    [[97, 98, 99, 10], [10], [120, 121, 122]].length < 2 ^ 32 ∧
    payload [[97, 98, 99, 10], [10], [120, 121, 122]] < 2 ^ 32 ∧
    ∃ b, ingest Batch.init [[97, 98, 99, 10], [10], [120, 121, 122]] = Outcome.returns b ∧
      b.items = 3 ∧ to_u32 b.data_len = 6 := by
  refine ⟨by decide, by decide, by decide, ?_⟩
  obtain ⟨b, hb, h1, -, -, -, h5⟩ :=
    packer_exact_below_limits [[97, 98, 99, 10], [10], [120, 121, 122]]
      (by decide) (by decide) (by decide)
  exact ⟨b, hb, h1, h5⟩

/-! ## Facts about the print loop, `setup` and `run_batch` -/

theorem print_loop_done (h : hash_info_t) (items i : Nat) (hi : items ≤ i) :
    print_loop h items i = Outcome.returns [] := by
  rw [print_loop, if_neg (by omega)]

theorem print_loop_eq (h : hash_info_t) (routine : Nat) (hprint : h.print = some routine)
    (items : Nat) (hitems : items ≤ INT_MAX) (k i : Nat) (hk : i + k = items) :
    print_loop h items i =
      Outcome.returns ((List.range' i k).map fun j =>
        Event.print routine (to_size_t (j * h.hash_size))) := by
  induction k generalizing i with
  | zero => rw [print_loop_done h items i (by omega)]; rfl
  | succ k ih =>
    rw [print_loop, if_pos (by omega), hprint]
    simp only
    rw [if_neg (by omega), ih (i + 1) (by omega)]
    rfl

theorem print_loop_overflow (h : hash_info_t) (routine : Nat) (hprint : h.print = some routine)
    (items : Nat) (hitems : INT_MAX < items) (k i : Nat) (hk : i + k = INT_MAX) :
    print_loop h items i = Outcome.undefined := by
  induction k generalizing i with
  | zero =>
    rw [print_loop, if_pos (by omega), hprint]
    simp only
    rw [if_pos (by omega)]
  | succ k ih =>
    rw [print_loop, if_pos (by omega), hprint]
    simp only
    rw [if_neg (by omega), ih (i + 1) (by omega)]

/-- What a run that passes line 141 went through: every stage of lines 113-138 succeeded. -/
theorem setup_some (registry : List hash_info_t) (argv : List String) (env : Env)
    (ev : List Event) (ret : Int) (h : hash_info_t)
    (hs : setup registry argv env = Outcome.returns (ev, ret, some h)) :
    ∃ e0 args e1 platform e2 e3,
      parse_args registry argv env = Outcome.returns (e0, 0, args) ∧
      args.hash_function.bind registry.get? = some h ∧
      get_platform env args.platform = Outcome.returns (e1, 0, platform) ∧
      get_device env (platform.getD 0) args.device_type = (e2, 0) ∧
      env.context_status = 0 ∧
      build_program env h.program = Outcome.returns (e3, 0) ∧
      ret = 0 ∧
      ev = e0 ++ e1 ++ e2 ++ [Event.clCreateContext] ++ e3 ++
        [Event.clCreateCommandQueueWithProperties, Event.clCreateKernel h.kernel] := by
  unfold setup at hs
  repeat' split at hs
  all_goals cases hs
  rename_i _ e0 r args hparse hr _ _ e1 r1 platform hplat hr1 _ e2 r2 hdev hr2 hctx _ e3 hr3
    hh hbuild
  simp only [ne_eq, Decidable.not_not] at hr hr1 hr2 hr3 hctx
  subst hr hr1 hr2 hr3
  exact ⟨e0, args, e1, platform, e2, e3, hparse, hh, hplat, hdev, hctx, hbuild, rfl, rfl⟩

theorem getopt_loop_zero (atoi : String → Int)
    (rest : args_t → Outcome (List Event × Int × args_t)) (gs : List GetoptReturn)
    (args : args_t) (e : List Event) (a : args_t)
    (h : getopt_loop atoi rest gs args = Outcome.returns (e, 0, a)) :
    ∃ args1, rest args1 = Outcome.returns (e, 0, a) := by
  induction gs generalizing args with
  | nil => exact ⟨args, h⟩
  | cons g gs ih =>
    unfold getopt_loop at h
    repeat' split at h
    all_goals first
      | exact ih _ h
      | (simp only [Outcome.returns.injEq, Prod.mk.injEq] at h; omega)
      | cases h

theorem find_hash_function_some (name : String) (registry : List hash_info_t) (i0 i : Nat)
    (h : find_hash_function name registry i0 = Outcome.returns (some i)) :
    i0 ≤ i ∧ ∃ d, registry.get? (i - i0) = some d ∧ d.name = some name ∧
      ∀ j d1, j < i - i0 → registry.get? j = some d1 → d1.name ≠ some name := by
  induction registry generalizing i0 with
  | nil => simp [find_hash_function] at h
  | cons d ds ih =>
    unfold find_hash_function at h
    split at h
    · cases h
    · rename_i n hn
      split at h
      · rename_i heq
        simp only [Outcome.returns.injEq, Option.some.injEq] at h
        subst h heq
        refine ⟨Nat.le_refl _, d, by simp, hn, ?_⟩
        intro j d1 hj
        omega
      · rename_i hneq
        obtain ⟨hle, d2, hget, hname, hfirst⟩ := ih (i0 + 1) h
        have hsub : i - i0 = (i - (i0 + 1)) + 1 := by omega
        refine ⟨by omega, d2, ?_, hname, ?_⟩
        · rw [hsub]; simpa using hget
        · intro j d1 hj hd1
          cases j with
          | zero =>
            simp only [List.get?_cons_zero, Option.some.injEq] at hd1
            subst hd1
            rw [hn]
            intro hc
            exact hneq (Option.some.inj hc)
          | succ j =>
            simp only [List.get?_cons_succ] at hd1
            exact hfirst j d1 (by omega) hd1

/-- When `parse_args` returns 0 it has printed nothing and `args->hash_function` points at
the first entry of the table whose name is the positional argument `argv[optind]`. -/
theorem parse_args_zero (registry : List hash_info_t) (argv : List String) (env : Env)
    (e0 : List Event) (args : args_t)
    (h : parse_args registry argv env = Outcome.returns (e0, 0, args)) :
    e0 = [] ∧ ∃ i d name, args.hash_function = some i ∧ registry.get? i = some d ∧
      argv.get? env.optind = some name ∧ d.name = some name ∧
      ∀ j d1, j < i → registry.get? j = some d1 → d1.name ≠ some name := by
  unfold parse_args at h
  obtain ⟨args1, h1⟩ := getopt_loop_zero _ _ _ _ _ _ h
  split at h1
  · simp only [Outcome.returns.injEq, Prod.mk.injEq] at h1; omega
  · split at h1
    · cases h1
    · rename_i name hname
      split at h1
      · rename_i i hfind
        simp only [Outcome.returns.injEq, Prod.mk.injEq] at h1
        obtain ⟨he, -, ha⟩ := h1
        obtain ⟨-, d, hget, hd, hfirst⟩ := find_hash_function_some _ _ _ _ hfind
        exact ⟨he.symm, i, d, name, by rw [← ha], hget, hname, hd, hfirst⟩
      · simp only [Outcome.returns.injEq, Prod.mk.injEq] at h1; omega
      · cases h1
      · cases h1

/-- The three outcomes of `get_platform`. -/
theorem get_platform_eq (env : Env) (index : Nat) :
    get_platform env index =
      if env.platforms_status ≠ CL_SUCCESS then
        Outcome.returns ([Event.clGetPlatformIDs 0], env.platforms_status, none)
      else if index ≥ to_u32 env.platforms.length then
        Outcome.returns ([Event.clGetPlatformIDs 0], CL_INVALID_PLATFORM, none)
      else
        Outcome.returns ([Event.clGetPlatformIDs 0, Event.clGetPlatformIDs (index + 1)],
          CL_SUCCESS, env.platforms.get? index) := by
  unfold get_platform
  simp only
  split
  · rfl
  · rename_i hst
    simp only [ne_eq, Decidable.not_not] at hst
    split
    · rfl
    · rename_i hidx
      have hmod : to_u32 env.platforms.length < U32_RANGE := Nat.mod_lt _ (by decide)
      have hle : to_u32 env.platforms.length ≤ env.platforms.length := Nat.mod_le _ _
      have h1 : to_u32 (index + 1) = index + 1 := Nat.mod_eq_of_lt (by omega)
      have hlt : index < env.platforms.length := by omega
      rw [h1]
      have hget : (env.platforms.take (index + 1)).get? index = some env.platforms[index] := by
        rw [List.get?_eq_getElem?, List.getElem?_take_of_lt (by omega)]
        exact List.getElem?_eq_getElem hlt
      have hget2 : env.platforms.get? index = some env.platforms[index] := by
        rw [List.get?_eq_getElem?]; exact List.getElem?_eq_getElem hlt
      rw [hget, hget2, hst]

theorem build_program_events (env : Env) (filename : Option String) (e3 : List Event)
    (ret : Int) (h : build_program env filename = Outcome.returns (e3, ret)) :
    ∀ e ∈ e3, ∀ r o, e ≠ Event.print r o := by
  unfold build_program at h
  split at h
  · cases h
  · split at h <;>
    · simp only [Outcome.returns.injEq, Prod.mk.injEq] at h
      obtain ⟨rfl, -⟩ := h
      intro e he r o
      simp only [List.mem_cons, List.mem_singleton, List.not_mem_nil, or_false] at he
      rcases he with rfl | rfl | rfl <;> simp

theorem get_device_events (env : Env) (platform device_type : Nat) :
    ∀ e ∈ (get_device env platform device_type).1, ∀ r o, e ≠ Event.print r o := by
  unfold get_device
  simp only
  split <;>
  · intro e he r o
    simp only [List.mem_cons, List.mem_singleton, List.not_mem_nil, or_false] at he
    rcases he with rfl | rfl <;> simp

theorem get_platform_events (env : Env) (index : Nat) (e1 : List Event) (ret : Int)
    (id : Option Nat) (h : get_platform env index = Outcome.returns (e1, ret, id)) :
    ∀ e ∈ e1, ∀ r o, e ≠ Event.print r o := by
  rw [get_platform_eq] at h
  repeat' split at h
  all_goals
    simp only [Outcome.returns.injEq, Prod.mk.injEq] at h
    obtain ⟨rfl, -⟩ := h
    intro e he r o
    simp only [List.mem_cons, List.mem_singleton, List.not_mem_nil, or_false] at he
    rcases he with rfl | rfl <;> simp

/-- The events of lines 113-141 contain no call of a print routine. -/
theorem setup_no_print (registry : List hash_info_t) (argv : List String) (env : Env)
    (ev : List Event) (ret : Int) (h : hash_info_t)
    (hs : setup registry argv env = Outcome.returns (ev, ret, some h)) :
    ∀ e ∈ ev, ∀ r o, e ≠ Event.print r o := by
  obtain ⟨e0, args, e1, platform, e2, e3, hparse, -, hplat, hdev, -, hbuild, -, rfl⟩ :=
    setup_some registry argv env ev ret h hs
  obtain ⟨rfl, -⟩ := parse_args_zero registry argv env e0 args hparse
  have h1 := get_platform_events env _ e1 0 platform hplat
  have h2 := get_device_events env (platform.getD 0) args.device_type
  rw [hdev] at h2
  have h3 := build_program_events env _ e3 0 hbuild
  intro e he r o
  simp only [List.nil_append, List.mem_append, List.mem_cons, List.mem_singleton,
    List.not_mem_nil, or_false] at he
  rcases he with (((he | he) | rfl) | he) | rfl | rfl
  · exact h1 e he r o
  · exact h2 e he r o
  · simp
  · exact h3 e he r o
  · simp
  · simp

theorem main_of_setup_some (registry : List hash_info_t) (argv : List String) (env : Env)
    (ev : List Event) (ret : Int) (h : hash_info_t)
    (hs : setup registry argv env = Outcome.returns (ev, ret, some h)) :
    main registry argv env =
      match run_batch env h with
      | Outcome.aborts => Outcome.aborts
      | Outcome.undefined => Outcome.undefined
      | Outcome.returns batch_events => Outcome.returns (ev ++ batch_events, ret) := by
  unfold main
  rw [hs]

theorem main_of_setup_none (registry : List hash_info_t) (argv : List String) (env : Env)
    (ev : List Event) (ret : Int)
    (hs : setup registry argv env = Outcome.returns (ev, ret, none)) :
    main registry argv env = Outcome.returns (ev, ret) := by
  unfold main
  rw [hs]

/-- The batch part of `main` in closed form, for at most `INT_MAX` records. -/
theorem run_batch_eq (env : Env) (h : hash_info_t) (routine : Nat)
    (hprint : h.print = some routine) (hne : ∀ l ∈ env.stdin, l ≠ [])
    (hn : env.stdin.length ≤ INT_MAX) (hpay : payload env.stdin < SIZE_RANGE) :
    run_batch env h = Outcome.returns
      ((hash env h env.stdin.length (to_u32 (payload env.stdin))).1 ++
        (List.range env.stdin.length).map
          (fun i => Event.print routine (to_size_t (i * h.hash_size))) ++ releases) := by
  have hI : INT_MAX < U32_RANGE := by decide
  unfold run_batch
  rw [ingest_init_packed env.stdin hne (by omega) hpay]
  simp only
  rw [show (packed env.stdin).items = env.stdin.length from rfl,
    print_loop_eq h routine hprint env.stdin.length hn env.stdin.length 0 (by omega)]
  simp only [List.range_eq_range']
  rfl

theorem run_batch_empty (env : Env) (h : hash_info_t) (hstdin : env.stdin = []) :
    run_batch env h = Outcome.returns ((hash env h 0 0).1 ++ releases) := by
  unfold run_batch
  rw [hstdin]
  simp only [ingest]
  rw [show Batch.init.items = 0 from rfl, print_loop_done h 0 0 (Nat.le_refl _)]
  rfl

theorem run_batch_ingest_undefined (env : Env) (h : hash_info_t)
    (hu : ingest Batch.init env.stdin = Outcome.undefined) :
    run_batch env h = Outcome.undefined := by
  unfold run_batch
  rw [hu]

theorem sample_setup (stdin : List (List Nat)) :
    setup sample_registry sample_argv (sample_env stdin) =
      Outcome.returns (sample_setup_events, 0, some sample_descriptor) := by
  rfl

/-! ## Ordering law -/

theorem payload_replicate_newline (n : Nat) : payload (List.replicate n [NEWLINE]) = 0 := by
  induction n with
  | zero => rfl
  | succ n ih =>
    rw [List.replicate_succ, show [NEWLINE] :: List.replicate n [NEWLINE] =
      [[NEWLINE]] ++ List.replicate n [NEWLINE] from rfl, payload_append, ih]
    rfl

theorem ingest_many_empty_records (n : Nat) (hn : 2 ^ 32 ≤ n) :
    ingest Batch.init (sample_env (List.replicate n [NEWLINE])).stdin = Outcome.undefined := by
  show ingest Batch.init (List.replicate n [NEWLINE]) = Outcome.undefined
  apply ingest_too_many
  · intro l hl
    rw [List.eq_of_mem_replicate hl]
    exact List.cons_ne_nil _ _
  · rw [payload_replicate_newline]; decide
  · rw [List.length_replicate]; exact hn

theorem main_many_empty_records (n : Nat) (hn : 2 ^ 32 ≤ n) :
    main sample_registry sample_argv (sample_env (List.replicate n [NEWLINE])) =
      Outcome.undefined := by
  rw [main_of_setup_some _ _ _ _ _ _ (sample_setup _),
    run_batch_ingest_undefined _ _ (ingest_many_empty_records n hn)]

/-- Counterexample to C3: `n = 2 ^ 32` records, each an empty line.  Setup succeeds, and the
run has no defined result: at the last record `(items + 1) * sizeof(metadata_t)` is 0, so the
store to `metadata + items` falls outside the array, and no `u32` counter can hold
`2 ^ 32`. -/
theorem u32_range_records_undefined :
    setup sample_registry sample_argv (sample_env (List.replicate (2 ^ 32) [NEWLINE])) =
      Outcome.returns (sample_setup_events, 0, some sample_descriptor) ∧
    (sample_env (List.replicate (2 ^ 32) [NEWLINE])).stdin.length = 2 ^ 32 ∧
    ingest Batch.init (sample_env (List.replicate (2 ^ 32) [NEWLINE])).stdin =
      Outcome.undefined ∧
    main sample_registry sample_argv (sample_env (List.replicate (2 ^ 32) [NEWLINE])) =
      Outcome.undefined :=
  ⟨sample_setup _, List.length_replicate _ _, ingest_many_empty_records (2 ^ 32) (Nat.le_refl _),
    main_many_empty_records (2 ^ 32) (Nat.le_refl _)⟩

theorem run_batch_counter_overflow (env : Env) (h : hash_info_t) (routine : Nat)
    (hprint : h.print = some routine) (hne : ∀ l ∈ env.stdin, l ≠ [])
    (hlo : INT_MAX < env.stdin.length) (hhi : env.stdin.length < U32_RANGE)
    (hpay : payload env.stdin < SIZE_RANGE) :
    run_batch env h = Outcome.undefined := by
  unfold run_batch
  rw [ingest_init_packed env.stdin hne hhi hpay]
  simp only
  rw [show (packed env.stdin).items = env.stdin.length from rfl,
    print_loop_overflow h routine hprint _ hlo INT_MAX 0 (Nat.zero_add _)]

/-- The bound `2 ^ 31` below comes from the loop counter `int i` of lines 163-165: with
`2 ^ 31` records (here empty lines) the last `++i` overflows. -/
theorem print_counter_overflows :
    main sample_registry sample_argv (sample_env (List.replicate (2 ^ 31) [NEWLINE])) =
      Outcome.undefined := by
  rw [main_of_setup_some _ _ _ _ _ _ (sample_setup _)]
  have hlen : (sample_env (List.replicate (2 ^ 31) [NEWLINE])).stdin.length = 2 ^ 31 :=
    List.length_replicate _ _
  rw [run_batch_counter_overflow _ _ 0 rfl]
  · intro l hl
    rw [List.eq_of_mem_replicate hl]
    exact List.cons_ne_nil _ _
  · rw [hlen]; decide
  · rw [hlen]; decide
  · show payload (List.replicate (2 ^ 31) [NEWLINE]) < SIZE_RANGE
    rw [payload_replicate_newline]; decide

/-- C3, amended.  For every `n` below `2 ^ 31`: on a run of `main` whose setup succeeds, whose
descriptor has a print routine and a digest size with `n * hash_size` below `2 ^ 64`, and
whose standard input holds `n` records (each line of `getline` non-empty, total payload
below `2 ^ 64` bytes), ingestion ends with `items = n`, the digest array is allocated with
length `n * hash_size`, `main` returns 0, and after the dispatch the print routine is invoked
exactly `n` times, the `i`-th time (`i = 0, ..., n - 1`, in increasing order) on the slice
that starts at byte `i * hash_size`; the setup events contain no print call. -/
theorem ordering_law (registry : List hash_info_t) (argv : List String) (env : Env)
    (ev : List Event) (ret : Int) (h : hash_info_t) (routine : Nat)
    (hsetup : setup registry argv env = Outcome.returns (ev, ret, some h))
    (hprint : h.print = some routine)
    (hne : ∀ l ∈ env.stdin, l ≠ [])
    (hn : env.stdin.length < 2 ^ 31)
    (hpay : payload env.stdin < 2 ^ 64)
    (hsize : env.stdin.length * h.hash_size < 2 ^ 64) :
    (∃ b, ingest Batch.init env.stdin = Outcome.returns b ∧ b.items = env.stdin.length) ∧
    (∀ e ∈ ev, ∀ r o, e ≠ Event.print r o) ∧
    main registry argv env = Outcome.returns
      (ev ++
        [Event.malloc (env.stdin.length * h.hash_size),
          Event.clCreateBuffer (env.stdin.length * SIZEOF_METADATA),
          Event.clCreateBuffer (to_u32 (payload env.stdin)),
          Event.clCreateBuffer (env.stdin.length * h.hash_size),
          Event.clSetKernelArg 0, Event.clSetKernelArg 1, Event.clSetKernelArg 2,
          Event.clEnqueueNDRangeKernel env.stdin.length,
          Event.clEnqueueReadBuffer (env.stdin.length * h.hash_size)] ++
        (List.range env.stdin.length).map (fun i => Event.print routine (i * h.hash_size)) ++
        releases, 0) := by
  have hI : INT_MAX = 2 ^ 31 - 1 := by decide
  have hU : U32_RANGE = 2 ^ 32 := rfl
  have hS : SIZE_RANGE = 2 ^ 64 := rfl
  have hM : SIZEOF_METADATA = 8 := rfl
  have hret : ret = 0 := by
    obtain ⟨_, _, _, _, _, _, -, -, -, -, -, -, hr, -⟩ := setup_some _ _ _ _ _ _ hsetup
    exact hr
  refine ⟨⟨packed env.stdin, ingest_init_packed env.stdin hne (by omega) (hS ▸ hpay), rfl⟩,
    setup_no_print _ _ _ _ _ _ hsetup, ?_⟩
  rw [main_of_setup_some _ _ _ _ _ _ hsetup,
    run_batch_eq env h routine hprint hne (by omega) (hS ▸ hpay)]
  simp only [hret]
  have hprints : (List.range env.stdin.length).map
        (fun i => Event.print routine (to_size_t (i * h.hash_size))) =
      (List.range env.stdin.length).map (fun i => Event.print routine (i * h.hash_size)) := by
    apply List.map_congr_left
    intro i hi
    have hlt : i < env.stdin.length := List.mem_range.mp hi
    have hle : i * h.hash_size ≤ env.stdin.length * h.hash_size :=
      Nat.mul_le_mul_right _ (Nat.le_of_lt hlt)
    rw [to_size_t, Nat.mod_eq_of_lt (by omega)]
  have hhash : (hash env h env.stdin.length (to_u32 (payload env.stdin))).1 =
      [Event.malloc (env.stdin.length * h.hash_size),
        Event.clCreateBuffer (env.stdin.length * SIZEOF_METADATA),
        Event.clCreateBuffer (to_u32 (payload env.stdin)),
        Event.clCreateBuffer (env.stdin.length * h.hash_size),
        Event.clSetKernelArg 0, Event.clSetKernelArg 1, Event.clSetKernelArg 2,
        Event.clEnqueueNDRangeKernel env.stdin.length,
        Event.clEnqueueReadBuffer (env.stdin.length * h.hash_size)] := by
    simp only [hash, to_size_t]
    rw [Nat.mod_eq_of_lt (by omega : env.stdin.length * h.hash_size < SIZE_RANGE),
      Nat.mod_eq_of_lt (by rw [hM]; omega : env.stdin.length * SIZEOF_METADATA < SIZE_RANGE)]
  rw [hprints, hhash, List.append_assoc, List.append_assoc]
  simp only [List.append_assoc]

/-- Witness of the amended C3: the three records `abc`, the empty record and `xyz`, hashed
with the sample descriptor (16-byte digests). -/
theorem ordering_law_witness :
    main sample_registry sample_argv (sample_env [[97, 98, 99, 10], [10], [120, 121, 122]]) =
      Outcome.returns
        (sample_setup_events ++
          [Event.malloc 48, Event.clCreateBuffer 24, Event.clCreateBuffer 6,
            Event.clCreateBuffer 48, Event.clSetKernelArg 0, Event.clSetKernelArg 1,
            Event.clSetKernelArg 2, Event.clEnqueueNDRangeKernel 3,
            Event.clEnqueueReadBuffer 48] ++
          [Event.print 0 0, Event.print 0 16, Event.print 0 32] ++ releases, 0) :=
  (ordering_law sample_registry sample_argv
    (sample_env [[97, 98, 99, 10], [10], [120, 121, 122]]) sample_setup_events 0
    sample_descriptor 0 (sample_setup _) rfl
    (by decide) (by decide) (by decide) (by decide)).2.2

/-! ## Dispatcher statuses, exit status, empty input -/

theorem failing_dispatch_setup (third : Int) (stdin : List (List Nat)) :
    setup sample_registry sample_argv (failing_dispatch_env third stdin) =
      Outcome.returns (sample_setup_events, 0, some sample_descriptor) := by
  rfl

/-- Counterexample to C4: one record `a`, and seven of the eight OpenCL calls of `hash` report
a failure (only the third `clCreateBuffer` reports `CL_SUCCESS`).  `hash` returns
`CL_SUCCESS`, and `main` invokes the print routine on the digest array and returns 0. -/
theorem dispatcher_ignores_failures :
    (failing_dispatch_env 0 [[97, 10]]).create_buffer_status 0 = -61 ∧
    (failing_dispatch_env 0 [[97, 10]]).enqueue_kernel_status = -52 ∧
    (hash (failing_dispatch_env 0 [[97, 10]]) sample_descriptor 1 1).2 = CL_SUCCESS ∧
    main sample_registry sample_argv (failing_dispatch_env 0 [[97, 10]]) =
      Outcome.returns
        (sample_setup_events ++
          [Event.malloc 16, Event.clCreateBuffer 8, Event.clCreateBuffer 1,
            Event.clCreateBuffer 16, Event.clSetKernelArg 0, Event.clSetKernelArg 1,
            Event.clSetKernelArg 2, Event.clEnqueueNDRangeKernel 1,
            Event.clEnqueueReadBuffer 16] ++
          [Event.print 0 0] ++ releases, 0) := by
  refine ⟨rfl, rfl, rfl, ?_⟩
  rw [main_of_setup_some _ _ _ _ _ _ (failing_dispatch_setup _ _),
    run_batch_eq _ sample_descriptor 0 rfl (by decide) (by decide) (by decide)]
  rfl

/-- C4, amended.  `hash` returns the status that its third `clCreateBuffer` call reported,
whatever the other seven OpenCL calls report, and `main` does not look at the value `hash`
returns: the calls `hash` makes, and the whole run of `main` (its events, the calls of the
print routine included, and the value it returns) are the same for every combination of the
eight statuses. -/
theorem dispatcher_statuses_dropped (registry : List hash_info_t) (argv : List String)
    (env : Env) (h : hash_info_t) (items data_len : Nat)
    (create_buffer set_kernel_arg : Nat → Int) (enqueue_kernel read_buffer : Int) :
    (hash env h items data_len).2 = env.create_buffer_status 2 ∧
    (hash { env with
        create_buffer_status := create_buffer
        set_kernel_arg_status := set_kernel_arg
        enqueue_kernel_status := enqueue_kernel
        read_buffer_status := read_buffer } h items data_len).1 =
      (hash env h items data_len).1 ∧
    main registry argv { env with
        create_buffer_status := create_buffer
        set_kernel_arg_status := set_kernel_arg
        enqueue_kernel_status := enqueue_kernel
        read_buffer_status := read_buffer } =
      main registry argv env :=
  ⟨rfl, rfl, rfl⟩

/-- Counterexample to C5: one record `a`, and every OpenCL call of `hash` reports a failure,
so that `hash` returns -61; `main` returns 0. -/
theorem failed_dispatch_exits_zero :
    (hash (failing_dispatch_env (-61) [[97, 10]]) sample_descriptor 1 1).2 = -61 ∧
    ∃ events, main sample_registry sample_argv (failing_dispatch_env (-61) [[97, 10]]) =
      Outcome.returns (events, 0) := by
  refine ⟨rfl, ?_⟩
  rw [main_of_setup_some _ _ _ _ _ _ (failing_dispatch_setup _ _),
    run_batch_eq _ sample_descriptor 0 rfl (by decide) (by decide) (by decide)]
  exact ⟨_, rfl⟩

/-- Counterexample to C6: empty standard input.  `main` returns 0 after `hash` has created
three buffers of size 0 and enqueued the kernel with global size 0. -/
theorem empty_input_is_dispatched :
    main sample_registry sample_argv (sample_env []) =
      Outcome.returns
        (sample_setup_events ++
          [Event.malloc 0, Event.clCreateBuffer 0, Event.clCreateBuffer 0,
            Event.clCreateBuffer 0, Event.clSetKernelArg 0, Event.clSetKernelArg 1,
            Event.clSetKernelArg 2, Event.clEnqueueNDRangeKernel 0,
            Event.clEnqueueReadBuffer 0] ++ releases, 0) := by
  rw [main_of_setup_some _ _ _ _ _ _ (sample_setup _), run_batch_empty _ _ rfl]
  rfl

/-- C6, amended.  When standard input holds zero records, on a run whose setup succeeds,
`main` calls no print routine and returns 0, and the dispatcher does the same device-side
work as for any batch, with sizes 0: `hash` creates three buffers of size 0, binds them,
enqueues the kernel with global size 0 and reads back 0 bytes; then the four releases. -/
theorem empty_input_dispatch (registry : List hash_info_t) (argv : List String) (env : Env)
    (ev : List Event) (ret : Int) (h : hash_info_t)
    (hsetup : setup registry argv env = Outcome.returns (ev, ret, some h))
    (hstdin : env.stdin = []) :
    (∀ e ∈ ev, ∀ r o, e ≠ Event.print r o) ∧
    main registry argv env =
      Outcome.returns
        (ev ++
          [Event.malloc 0, Event.clCreateBuffer 0, Event.clCreateBuffer 0,
            Event.clCreateBuffer 0, Event.clSetKernelArg 0, Event.clSetKernelArg 1,
            Event.clSetKernelArg 2, Event.clEnqueueNDRangeKernel 0,
            Event.clEnqueueReadBuffer 0] ++ releases, 0) := by
  have hret : ret = 0 := by
    obtain ⟨_, _, _, _, _, _, -, -, -, -, -, -, hr, -⟩ := setup_some _ _ _ _ _ _ hsetup
    exact hr
  refine ⟨setup_no_print _ _ _ _ _ _ hsetup, ?_⟩
  rw [main_of_setup_some _ _ _ _ _ _ hsetup, run_batch_empty _ _ hstdin]
  simp only [hret, hash, to_size_t, Nat.zero_mul, Nat.zero_mod, List.append_assoc]

/-- Witness of the amended C6: the sample run on empty standard input. -/
theorem empty_input_dispatch_witness :
    setup sample_registry sample_argv (sample_env []) =
      Outcome.returns (sample_setup_events, 0, some sample_descriptor) ∧
    (sample_env []).stdin = [] ∧
    ∃ events, main sample_registry sample_argv (sample_env []) = Outcome.returns (events, 0) :=
  ⟨sample_setup _, rfl, _,
    (empty_input_dispatch sample_registry sample_argv (sample_env []) sample_setup_events 0
      sample_descriptor (sample_setup _) rfl).2⟩

/-- C7, on the table of the source.  With the command line `hash md5`, `parse_args` compares
the null name of the only entry of `HASH_FUNCTIONS` through `strcmp`: it does not return, and
neither does `main`. -/
theorem parse_args_on_source_table :
    find_hash_function "md5" HASH_FUNCTIONS 0 = Outcome.undefined ∧
    parse_args HASH_FUNCTIONS sample_argv (sample_env []) = Outcome.undefined ∧
    main HASH_FUNCTIONS sample_argv (sample_env []) = Outcome.undefined := by
  decide

/-- C10, on the path where `build_program` fails after the context was created (the source
file is missing): `main` returns `CL_INVALID_VALUE`; the run contains `clCreateContext` and no
`clReleaseContext`. -/
theorem context_not_released_on_build_failure :
    main sample_registry sample_argv missing_source_env =
      Outcome.returns
        ([Event.clGetPlatformIDs 0, Event.clGetPlatformIDs 1,
          Event.clGetDeviceIDs 7 CL_DEVICE_TYPE_ALL 0,
          Event.clGetDeviceIDs 7 CL_DEVICE_TYPE_ALL 1,
          Event.clCreateContext, Event.fopen "md5.cl",
          Event.fprintf_stderr (Message.failed_build CL_INVALID_VALUE)], CL_INVALID_VALUE) := by
  decide

/-! ## Exit status and platform selection -/

theorem parse_args_zero_descriptor (registry : List hash_info_t) (argv : List String)
    (env : Env) (e0 : List Event) (args : args_t)
    (h : parse_args registry argv env = Outcome.returns (e0, 0, args)) :
    ∃ d, args.hash_function.bind registry.get? = some d := by
  obtain ⟨-, i, d, name, hi, hd, -⟩ := parse_args_zero registry argv env e0 args h
  exact ⟨d, by rw [hi]; exact hd⟩

/-- Lines 117-141 of `main` once `parse_args` has returned 0. -/
theorem setup_of_parse (registry : List hash_info_t) (argv : List String) (env : Env)
    (e0 : List Event) (args : args_t) (h : hash_info_t)
    (hparse : parse_args registry argv env = Outcome.returns (e0, 0, args))
    (hh : args.hash_function.bind registry.get? = some h) :
    setup registry argv env =
      match get_platform env args.platform with
      | Outcome.aborts => Outcome.aborts
      | Outcome.undefined => Outcome.undefined
      | Outcome.returns (e1, ret, platform) =>
        if ret ≠ 0 then
          Outcome.returns
            (e0 ++ e1 ++ [Event.fprintf_stderr (Message.failed_platform ret)], ret, none)
        else
          match get_device env (platform.getD 0) args.device_type with
          | (e2, ret) =>
            if ret ≠ 0 then
              Outcome.returns
                (e0 ++ e1 ++ e2 ++ [Event.fprintf_stderr (Message.failed_device ret)], ret, none)
            else
              if env.context_status ≠ CL_SUCCESS then
                Outcome.returns
                  (e0 ++ e1 ++ e2 ++ [Event.clCreateContext,
                    Event.printf (Message.failed_context env.context_status)],
                    env.context_status, none)
              else
                match build_program env h.program with
                | Outcome.aborts => Outcome.aborts
                | Outcome.undefined => Outcome.undefined
                | Outcome.returns (e3, ret) =>
                  if ret ≠ 0 then
                    Outcome.returns
                      (e0 ++ e1 ++ e2 ++ [Event.clCreateContext] ++ e3 ++
                        [Event.fprintf_stderr (Message.failed_build ret)], ret, none)
                  else
                    Outcome.returns
                      (e0 ++ e1 ++ e2 ++ [Event.clCreateContext] ++ e3 ++
                        [Event.clCreateCommandQueueWithProperties,
                          Event.clCreateKernel h.kernel], ret, some h) := by
  unfold setup
  rw [hparse]
  simp only [ne_eq, not_true_eq_false, if_false]
  rw [hh]

theorem get_platform_returns (env : Env) (index : Nat) :
    ∃ e1 r1 platform, get_platform env index = Outcome.returns (e1, r1, platform) := by
  rw [get_platform_eq]
  repeat' split
  all_goals exact ⟨_, _, _, rfl⟩

theorem build_program_returns (env : Env) (file : String) :
    ∃ e3 r3, build_program env (some file) = Outcome.returns (e3, r3) := by
  unfold build_program
  simp only
  split <;> exact ⟨_, _, rfl⟩

theorem run_batch_returns (env : Env) (h : hash_info_t) (routine : Nat)
    (hprint : h.print = some routine) (hne : ∀ l ∈ env.stdin, l ≠ [])
    (hn : env.stdin.length < 2 ^ 31) (hpay : payload env.stdin < 2 ^ 64) :
    ∃ batch_events, run_batch env h = Outcome.returns batch_events := by
  have hI : INT_MAX = 2 ^ 31 - 1 := by decide
  exact ⟨_, run_batch_eq env h routine hprint hne (by omega) hpay⟩

/-- C5, amended.  On every run in which `parse_args` accepts the arguments, `main` returns
the status of the first of `get_platform`, `get_device`, `clCreateContext` and
`build_program` that reports a non-success status, a non-zero value; when all four succeed,
the run reaches the dispatch and `main` returns zero, whatever the OpenCL calls of `hash`
report (for a descriptor with a print routine and fewer than `2 ^ 31` records, where the
batch part of `main` is defined). -/
theorem exit_status (registry : List hash_info_t) (argv : List String) (env : Env)
    (e0 : List Event) (args : args_t)
    (hparse : parse_args registry argv env = Outcome.returns (e0, 0, args)) :
    ∃ h e1 r1 platform,
      args.hash_function.bind registry.get? = some h ∧
      get_platform env args.platform = Outcome.returns (e1, r1, platform) ∧
      (r1 ≠ 0 → ∃ ev, main registry argv env = Outcome.returns (ev, r1)) ∧
      (r1 = 0 → ∃ e2 r2,
        get_device env (platform.getD 0) args.device_type = (e2, r2) ∧
        (r2 ≠ 0 → ∃ ev, main registry argv env = Outcome.returns (ev, r2)) ∧
        (r2 = 0 →
          (env.context_status ≠ 0 →
            ∃ ev, main registry argv env = Outcome.returns (ev, env.context_status)) ∧
          (env.context_status = 0 → ∀ file, h.program = some file →
            ∃ e3 r3, build_program env h.program = Outcome.returns (e3, r3) ∧
              (r3 ≠ 0 → ∃ ev, main registry argv env = Outcome.returns (ev, r3)) ∧
              (r3 = 0 → ∀ routine, h.print = some routine →
                (∀ l ∈ env.stdin, l ≠ []) → env.stdin.length < 2 ^ 31 →
                payload env.stdin < 2 ^ 64 →
                ∃ ev, main registry argv env = Outcome.returns (ev, 0))))) := by
  obtain ⟨h, hh⟩ := parse_args_zero_descriptor registry argv env e0 args hparse
  obtain ⟨e1, r1, platform, hplat⟩ := get_platform_returns env args.platform
  have hsetup := setup_of_parse registry argv env e0 args h hparse hh
  rw [hplat] at hsetup
  simp only at hsetup
  refine ⟨h, e1, r1, platform, hh, hplat, ?_, ?_⟩
  · intro hr1
    rw [if_pos hr1] at hsetup
    exact ⟨_, main_of_setup_none _ _ _ _ _ hsetup⟩
  · intro hr1
    rw [if_neg (by simpa using hr1)] at hsetup
    refine ⟨(get_device env (platform.getD 0) args.device_type).1,
      (get_device env (platform.getD 0) args.device_type).2, rfl, ?_, ?_⟩
    · intro hr2
      rw [if_pos hr2] at hsetup
      exact ⟨_, main_of_setup_none _ _ _ _ _ hsetup⟩
    · intro hr2
      rw [if_neg (by simpa using hr2)] at hsetup
      refine ⟨?_, ?_⟩
      · intro hctx
        rw [if_pos (show env.context_status ≠ CL_SUCCESS from hctx)] at hsetup
        exact ⟨_, main_of_setup_none _ _ _ _ _ hsetup⟩
      · intro hctx file hfile
        rw [if_neg (show ¬ env.context_status ≠ CL_SUCCESS from fun hc => hc hctx)] at hsetup
        obtain ⟨e3, r3, hbuild⟩ := build_program_returns env file
        rw [← hfile] at hbuild
        rw [hbuild] at hsetup
        simp only at hsetup
        refine ⟨e3, r3, hbuild, ?_, ?_⟩
        · intro hr3
          rw [if_pos hr3] at hsetup
          exact ⟨_, main_of_setup_none _ _ _ _ _ hsetup⟩
        · intro hr3 routine hprint hne hn hpay
          rw [if_neg (by simpa using hr3)] at hsetup
          obtain ⟨be, hbe⟩ := run_batch_returns env h routine hprint hne hn hpay
          refine ⟨(e0 ++ e1 ++ (get_device env (platform.getD 0) args.device_type).1 ++
            [Event.clCreateContext] ++ e3 ++
            [Event.clCreateCommandQueueWithProperties, Event.clCreateKernel h.kernel]) ++ be, ?_⟩
          rw [main_of_setup_some _ _ _ _ _ _ hsetup, hbe, hr3]

/-- Witness of the amended C5: the sample command line in the sample environment. -/
theorem exit_status_witness :
    parse_args sample_registry sample_argv (sample_env []) =
      Outcome.returns ([], 0, ⟨0, CL_DEVICE_TYPE_ALL, some 0⟩) ∧
    ∃ h e1 r1 platform,
      (args_t.mk 0 CL_DEVICE_TYPE_ALL (some 0)).hash_function.bind sample_registry.get? =
        some h ∧
      get_platform (sample_env []) 0 = Outcome.returns (e1, r1, platform) := by
  refine ⟨rfl, ?_⟩
  obtain ⟨h, e1, r1, platform, hh, hplat, -⟩ :=
    exit_status sample_registry sample_argv (sample_env []) [] ⟨0, CL_DEVICE_TYPE_ALL, some 0⟩
      rfl
  exact ⟨h, e1, r1, platform, hh, hplat⟩

/-- C8. Platform selection.  For every ordinal `index` and every result of the platform
enumeration (a status and fewer than `2 ^ 32` platforms), `get_platform` returns; it returns
a non-success status exactly when the enumeration fails (it returns that status) or `index`
is not below the number of platforms (it returns `CL_INVALID_PLATFORM`, -32); otherwise it
returns `CL_SUCCESS` and stores the platform at position `index` of the enumeration, which
lies within the `index + 1` entries it requested, a sum that does not wrap.  When
`get_platform` fails, `main` returns that non-zero status after the first
`clGetPlatformIDs` call and a diagnostic: no context, program, queue or kernel call. -/
theorem platform_selection (env : Env) (index : Nat)
    (hcount : env.platforms.length < 2 ^ 32) :
    (∃ e1 ret id, get_platform env index = Outcome.returns (e1, ret, id) ∧
      (ret ≠ CL_SUCCESS ↔
        env.platforms_status ≠ CL_SUCCESS ∨ env.platforms.length ≤ index) ∧
      (env.platforms_status ≠ CL_SUCCESS → ret = env.platforms_status ∧ id = none) ∧
      (env.platforms_status = CL_SUCCESS → env.platforms.length ≤ index →
        ret = CL_INVALID_PLATFORM ∧ ret = -32 ∧ id = none) ∧
      (env.platforms_status = CL_SUCCESS → index < env.platforms.length →
        ret = CL_SUCCESS ∧ id = env.platforms.get? index ∧ id ≠ none ∧
        to_u32 (index + 1) = index + 1 ∧ index + 1 ≤ env.platforms.length ∧
        e1 = [Event.clGetPlatformIDs 0, Event.clGetPlatformIDs (index + 1)])) ∧
    (∀ registry argv e0 args,
      parse_args registry argv env = Outcome.returns (e0, 0, args) →
      ∀ e1 ret id, get_platform env args.platform = Outcome.returns (e1, ret, id) →
      ret ≠ 0 →
      main registry argv env =
        Outcome.returns
          ([Event.clGetPlatformIDs 0, Event.fprintf_stderr (Message.failed_platform ret)],
            ret)) := by
  have hU : U32_RANGE = 2 ^ 32 := rfl
  have hn : to_u32 env.platforms.length = env.platforms.length :=
    Nat.mod_eq_of_lt (hU ▸ hcount)
  refine ⟨?_, ?_⟩
  · rw [get_platform_eq, hn]
    by_cases hst : env.platforms_status = CL_SUCCESS
    · rw [if_neg (fun hc => hc hst)]
      by_cases hidx : index ≥ env.platforms.length
      · rw [if_pos hidx]
        refine ⟨_, _, _, rfl, ?_, ?_, ?_, ?_⟩
        · exact ⟨fun _ => Or.inr hidx, fun _ => by decide⟩
        · intro hc; exact absurd hst hc
        · intro _ _; exact ⟨rfl, rfl, rfl⟩
        · intro _ hlt; omega
      · rw [if_neg hidx]
        have hlt : index < env.platforms.length := by omega
        have hget : env.platforms.get? index = some env.platforms[index] := by
          rw [List.get?_eq_getElem?]; exact List.getElem?_eq_getElem hlt
        refine ⟨_, _, _, rfl, ?_, ?_, ?_, ?_⟩
        · constructor
          · intro hc; exact absurd rfl hc
          · rintro (hc | hc)
            · exact absurd hst hc
            · omega
        · intro hc; exact absurd hst hc
        · intro _ hle; omega
        · intro _ _
          refine ⟨rfl, rfl, ?_, Nat.mod_eq_of_lt (by omega), by omega, rfl⟩
          rw [hget]; exact Option.some_ne_none _
    · rw [if_pos hst]
      refine ⟨_, _, _, rfl, ?_, ?_, ?_, ?_⟩
      · exact ⟨fun _ => Or.inl hst, fun _ => hst⟩
      · intro _; exact ⟨rfl, rfl⟩
      · intro hc; exact absurd hc hst
      · intro hc; exact absurd hc hst
  · intro registry argv e0 args hparse e1 ret id hplat hret
    obtain ⟨h, hh⟩ := parse_args_zero_descriptor registry argv env e0 args hparse
    obtain ⟨he0, -⟩ := parse_args_zero registry argv env e0 args hparse
    have hsetup := setup_of_parse registry argv env e0 args h hparse hh
    rw [hplat] at hsetup
    simp only at hsetup
    rw [if_pos hret] at hsetup
    have he1 : e1 = [Event.clGetPlatformIDs 0] := by
      rw [get_platform_eq] at hplat
      repeat' split at hplat
      all_goals
        simp only [Outcome.returns.injEq, Prod.mk.injEq] at hplat
      · exact hplat.1.symm
      · exact hplat.1.symm
      · exact absurd hplat.2.1.symm hret
    rw [main_of_setup_none _ _ _ _ _ hsetup, he0, he1]
    rfl

/-- Witness of C8: `-p 99` style ordinal 99 against the one platform of the sample
environment. -/
theorem platform_selection_witness :
    (sample_env []).platforms.length < 2 ^ 32 ∧
    get_platform (sample_env []) 99 =
      Outcome.returns ([Event.clGetPlatformIDs 0], CL_INVALID_PLATFORM, none) ∧
    ∃ e1 ret id, get_platform (sample_env []) 99 = Outcome.returns (e1, ret, id) ∧
      (ret ≠ CL_SUCCESS ↔
        (sample_env []).platforms_status ≠ CL_SUCCESS ∨
          (sample_env []).platforms.length ≤ 99) := by
  refine ⟨by decide, rfl, ?_⟩
  obtain ⟨e1, ret, id, h1, h2, -⟩ := (platform_selection (sample_env []) 99 (by decide)).1
  exact ⟨e1, ret, id, h1, h2⟩

/-! ## Name resolution on a populated table -/

theorem getopt_loop_options (atoi : String → Int)
    (rest : args_t → Outcome (List Event × Int × args_t)) (gs : List GetoptReturn)
    (args : args_t) (hopts : ∀ g ∈ gs, g.c = 'd' ∨ g.c = 'p') :
    ∃ args1, getopt_loop atoi rest gs args = rest args1 := by
  induction gs generalizing args with
  | nil => exact ⟨args, rfl⟩
  | cons g gs ih =>
    have hrest : ∀ x ∈ gs, x.c = 'd' ∨ x.c = 'p' := fun x hx => hopts x (List.mem_cons_of_mem _ hx)
    unfold getopt_loop
    rcases hopts g (List.mem_cons_self _ _) with hc | hc
    · rw [hc]
      simp only [show ¬ ('d' = 'h') by decide, if_false, if_true]
      repeat' split
      all_goals exact ih _ hrest
    · rw [hc]
      simp only [show ¬ ('p' = 'h') by decide, show ¬ ('p' = 'd') by decide, if_false, if_true]
      exact ih _ hrest

theorem find_hash_function_none (name : String) (registry : List hash_info_t) (i0 : Nat)
    (hnames : ∀ d ∈ registry, d.name ≠ none) (hno : ∀ d ∈ registry, d.name ≠ some name) :
    find_hash_function name registry i0 = Outcome.returns none := by
  induction registry generalizing i0 with
  | nil => rfl
  | cons d ds ih =>
    unfold find_hash_function
    cases hd : d.name with
    | none => exact absurd hd (hnames d (List.mem_cons_self _ _))
    | some n =>
      simp only
      have hne : n ≠ name := fun hc => hno d (List.mem_cons_self _ _) (by rw [hd, hc])
      rw [if_neg hne]
      exact ih (i0 + 1) (fun x hx => hnames x (List.mem_cons_of_mem _ hx))
        (fun x hx => hno x (List.mem_cons_of_mem _ hx))

theorem find_hash_function_found (name : String) (registry : List hash_info_t) (i0 : Nat)
    (hnames : ∀ d ∈ registry, d.name ≠ none) (hyes : ∃ d ∈ registry, d.name = some name) :
    ∃ i, find_hash_function name registry i0 = Outcome.returns (some i) := by
  induction registry generalizing i0 with
  | nil => obtain ⟨d, hd, -⟩ := hyes; cases hd
  | cons d ds ih =>
    unfold find_hash_function
    cases hd : d.name with
    | none => exact absurd hd (hnames d (List.mem_cons_self _ _))
    | some n =>
      simp only
      by_cases hn : n = name
      · rw [if_pos hn]; exact ⟨i0, rfl⟩
      · rw [if_neg hn]
        apply ih (i0 + 1) (fun x hx => hnames x (List.mem_cons_of_mem _ hx))
        obtain ⟨d1, hd1, hname1⟩ := hyes
        rcases List.mem_cons.mp hd1 with rfl | hmem
        · rw [hd] at hname1
          exact absurd (Option.some.inj hname1) hn
        · exact ⟨d1, hmem, hname1⟩

/-- Name resolution as C7 states it, on any table whose names are all non-null (and a command
line whose options are `-d` and `-p` only, with positional argument `name`).  A name that is
in no entry: `parse_args` prints the list of the valid names and returns 1, and `main` then
returns (the value 0), having made no OpenCL call.  A name that is in the table: `parse_args` returns 0 with
`args->hash_function` at the first entry of that name. -/
theorem parse_args_resolves (registry : List hash_info_t) (argv : List String) (env : Env)
    (name : String) (hnames : ∀ d ∈ registry, d.name ≠ none)
    (hopts : ∀ g ∈ env.getopt, g.c = 'd' ∨ g.c = 'p')
    (harg : argv.get? env.optind = some name) :
    ((∀ d ∈ registry, d.name ≠ some name) →
      ∃ args,
        parse_args registry argv env = Outcome.returns
          (Event.fprintf_stderr (Message.invalid_hash_function name) ::
            registry.map (fun d => Event.fprintf_stderr (Message.valid_name (d.name.getD ""))),
            1, args) ∧
        main registry argv env = Outcome.returns
          (Event.fprintf_stderr (Message.invalid_hash_function name) ::
            registry.map (fun d => Event.fprintf_stderr (Message.valid_name (d.name.getD ""))),
            CL_SUCCESS)) ∧
    ((∃ d ∈ registry, d.name = some name) →
      ∃ args i d, parse_args registry argv env = Outcome.returns ([], 0, args) ∧
        args.hash_function = some i ∧ registry.get? i = some d ∧ d.name = some name ∧
        ∀ j d1, j < i → registry.get? j = some d1 → d1.name ≠ some name) := by
  have hlen : ¬ ((argv.length : Int) - (env.optind : Int) < 1) := by
    rw [List.get?_eq_getElem?] at harg
    have := (List.getElem?_eq_some_iff.mp harg).1
    omega
  obtain ⟨args1, hloop⟩ := getopt_loop_options env.atoi
    (fun args =>
      if (argv.length : Int) - (env.optind : Int) < 1 then
        Outcome.returns ([Event.fprintf_stderr Message.missing_hash_function, Event.usage], 1, args)
      else
        match argv.get? env.optind with
        | none => Outcome.undefined
        | some hash_function =>
          match find_hash_function hash_function registry 0 with
          | Outcome.returns (some i) =>
            Outcome.returns ([], 0, { args with hash_function := some i })
          | Outcome.returns none =>
            Outcome.returns
              (Event.fprintf_stderr (Message.invalid_hash_function hash_function) ::
                registry.map (fun h => Event.fprintf_stderr (Message.valid_name (h.name.getD ""))),
               1, args)
          | Outcome.aborts => Outcome.aborts
          | Outcome.undefined => Outcome.undefined)
    env.getopt { platform := 0, device_type := CL_DEVICE_TYPE_ALL, hash_function := none } hopts
  have hparse : parse_args registry argv env =
      match find_hash_function name registry 0 with
      | Outcome.returns (some i) =>
        Outcome.returns ([], 0, { args1 with hash_function := some i })
      | Outcome.returns none =>
        Outcome.returns
          (Event.fprintf_stderr (Message.invalid_hash_function name) ::
            registry.map (fun h => Event.fprintf_stderr (Message.valid_name (h.name.getD ""))),
           1, args1)
      | Outcome.aborts => Outcome.aborts
      | Outcome.undefined => Outcome.undefined := by
    unfold parse_args
    rw [hloop]
    simp only [if_neg hlen, harg]
  refine ⟨?_, ?_⟩
  · intro hno
    rw [find_hash_function_none name registry 0 hnames hno] at hparse
    simp only at hparse
    refine ⟨args1, hparse, ?_⟩
    unfold main setup
    rw [hparse]
    simp
  · intro hyes
    obtain ⟨i, hfind⟩ := find_hash_function_found name registry 0 hnames hyes
    rw [hfind] at hparse
    simp only at hparse
    obtain ⟨-, i1, d, name1, hi1, hd, hname1, hdname, hfirst⟩ :=
      parse_args_zero registry argv env _ _ hparse
    rw [harg] at hname1
    cases hname1
    exact ⟨_, i1, d, hparse, hi1, hd, hdname, hfirst⟩

/-- The value `main` returns when `parse_args` rejects the command line (here `hash` without
a positional argument): `ret` still holds its initial value `CL_SUCCESS`. -/
theorem main_on_rejected_arguments :
    parse_args sample_registry ["hash"] (sample_env []) =
      Outcome.returns
        ([Event.fprintf_stderr Message.missing_hash_function, Event.usage], 1,
          ⟨0, CL_DEVICE_TYPE_ALL, none⟩) ∧
    main sample_registry ["hash"] (sample_env []) =
      Outcome.returns ([Event.fprintf_stderr Message.missing_hash_function, Event.usage], 0) := by
  decide

end HashCL
